import Mathlib

/-!
# The asset loader and readiness gate of `src/main.js`

A shallow embedding of the script `src/main.js` (a Three.js scene with three
asynchronously loaded models) and the properties of its loader.

Modelling conventions.

* The script's global variables are the fields of `State`, with the source's names.
* Scene-graph objects live in a heap (`State.heap`); a handle (`Ref`) is an index
  into it, so that `three_objs` and the scene share the objects they hold.
* JavaScript numbers are an abstract carrier `F` with the operations the script
  uses (`JSMath F`); nothing proved here depends on their values, and every
  theorem holds for every interpretation.
* JavaScript runs every callback to completion and drains the promise reactions
  it queued before the next callback starts.  A transition of the model is one
  callback invoked by the host (a load completion, an animation frame, a button
  click, a resize) together with the promise reactions it triggers.
* What the host decides (the outcome of each load, the order of the callbacks,
  the values of `Math.random()`, the canvas size) is carried by the `Event`.
-/

namespace NasaApp

/-! ## Numbers, vectors, objects -/

/-- The operations on JavaScript numbers that the script uses. -/
structure JSMath (F : Type) where
  /-- A numeric literal of the source. -/
  num : ℚ → F
  add : F → F → F
  sub : F → F → F
  mul : F → F → F
  div : F → F → F
  sin : F → F
  cos : F → F
  /-- The constant `Math.PI`. -/
  PI : F
  /-- The comparison `==` on two numbers. -/
  looseEq : F → F → Bool

/-- A handle on a scene-graph object: its address in the heap. -/
abbrev Ref := Nat

/-- A `THREE.Vector3` / `THREE.Euler`: three numeric components. -/
structure Vec3 (F : Type) where
  x : F
  y : F
  z : F

/-- The method `.set(x, y, z)` of a vector. -/
def Vec3.set {F : Type} (_v : Vec3 F) (x y z : F) : Vec3 F := ⟨x, y, z⟩

/-- The fields of a material that the script writes. -/
structure Material (F : Type) where
  opacity : F
  transparent : Bool

/-- What `traverse` sees of one node of an object: the flag `isMesh` and the
material, when the node has one. -/
structure Node (F : Type) where
  isMesh : Bool
  material : Option (Material F)

/-- A scene-graph object: its own position, rotation and scale, and the nodes
`traverse` visits (the object itself and its descendants, in visiting order). -/
structure Object3D (F : Type) where
  position : Vec3 F
  rotation : Vec3 F
  scale : Vec3 F
  nodes : List (Node F)

/-- The state of a JavaScript promise. -/
inductive PromiseState (α : Type) where
  | pending : PromiseState α
  | fulfilled (value : α) : PromiseState α
  | rejected (reason : String) : PromiseState α
  deriving DecidableEq, Repr

/-- One call of `console.log` or `console.error`. -/
inductive LogEntry where
  | log (msg : String) : LogEntry
  | error (msg : String) (err : String) : LogEntry
  deriving DecidableEq, Repr

/-! ## The global state of the script -/

/-- The global variables of `src/main.js`, the heap of scene-graph objects, and
the promises created by `loadObjs`. -/
structure State (F : Type) where
  /-- The objects created so far; a `Ref` is an index in this list. -/
  heap : List (Object3D F)
  /-- The children of `scene`, in insertion order. -/
  scene : List Ref
  /-- Field `camera.position.z`. -/
  camera_position_z : F
  /-- Field `camera.aspect`. -/
  camera_aspect : F
  /-- The size last given to `renderer.setSize`. -/
  renderer_size : F × F
  obj_filenames : List String
  /-- The `Map` `three_objs`, as its entries in insertion order. -/
  three_objs : List (String × Ref)
  /-- The paths passed to `loader.load`, one per call of `loadObj`. -/
  requests : List String
  /-- The promises returned by the calls `loadObj(obj_filenames[i])`. -/
  loads : List (PromiseState Ref)
  /-- The promise `Promise.all(obj_filenames.map(loadObj))`. -/
  joined : PromiseState (List Ref)
  /-- The promise returned by the async function `loadObjs`. -/
  loadObjs_result : PromiseState Unit
  all_objs_loaded : Bool
  cube : Option Ref
  starArray : List Ref
  rotation_enabled : Bool
  opacity : F
  /-- The global created by the undeclared assignment `offset = ...`. -/
  offset : Option F
  transformed : Bool
  spaceShuttleTime : F
  orbitRadius : F
  /-- The calls of `console.log` and `console.error`, oldest first. -/
  console : List LogEntry

variable {F : Type}

/-! ## The heap, the scene and the map -/

/-- Replace the object at address `r` by its image under `f`. -/
def updateAt (f : Object3D F → Object3D F) : List (Object3D F) → Ref → List (Object3D F)
  | [], _ => []
  | o :: os, 0 => f o :: os
  | o :: os, r + 1 => o :: updateAt f os r

/-- Apply `f` to the object a handle points to. -/
def State.modify (s : State F) (r : Ref) (f : Object3D F → Object3D F) : State F :=
  { s with heap := updateAt f s.heap r }

/-- The method `scene.add(obj)`: the object is removed from its parent, here
the scene when it is already a child, and pushed at the end of the children. -/
def scene_add (children : List Ref) (obj : Ref) : List Ref :=
  children.filter (fun c => c != obj) ++ [obj]

/-- The method `Map.prototype.set`: the entry of an existing key is replaced in
place, a new key is appended. -/
def Map_set : List (String × Ref) → String → Ref → List (String × Ref)
  | [], k, v => [(k, v)]
  | (k0, v0) :: m, k, v => if k0 = k then (k0, v) :: m else (k0, v0) :: Map_set m k v

/-- The method `Map.prototype.get`: the value of the key, `none` standing for
`undefined` when the key is absent. -/
def Map_get : List (String × Ref) → String → Option Ref
  | [], _ => none
  | (k0, v0) :: m, k => if k0 = k then some v0 else Map_get m k

/-- The method `Map.prototype.has`. -/
def Map_has (m : List (String × Ref)) (k : String) : Bool := (Map_get m k).isSome

/-! ## `loadObj` and `loadObjs` -/

/-- The path computed by `loadObj`: the template `assets/$objName.glb`. -/
def assetPath (objName : String) : String := "assets/" ++ objName ++ ".glb"

/-- The body of `loadObj(objName)` up to its `return`: one request is issued and
a pending promise is returned. -/
def loadObj (s : State F) (objName : String) : State F :=
  { s with requests := s.requests ++ [assetPath objName],
           loads := s.loads ++ [PromiseState.pending] }

/-- The values of the promises when all of them are fulfilled, in index order. -/
def allValues : List (PromiseState Ref) → Option (List Ref)
  | [] => some []
  | PromiseState.fulfilled v :: ps => (allValues ps).map (fun vs => v :: vs)
  | _ :: _ => none

/-- The `try` block of `loadObjs` after the `await`: every loaded object is
added to the scene, the flag is set and the success is logged; the async
function then returns. -/
def loadObjs_resume (s : State F) (loadedObjects : List Ref) : State F :=
  { s with scene := loadedObjects.foldl scene_add s.scene,
           all_objs_loaded := true,
           console := s.console ++ [LogEntry.log "All objects loaded!"],
           loadObjs_result := PromiseState.fulfilled () }

/-- The `catch` block of `loadObjs`: the error is logged; the async function
then returns. -/
def loadObjs_catch (s : State F) (error : String) : State F :=
  { s with console := s.console ++ [LogEntry.error "Error loading some objects:" error],
           loadObjs_result := PromiseState.fulfilled () }

/-- The reaction of `Promise.all` to the fulfilment of one of its elements: when
every element is fulfilled and the promise is still pending, it is fulfilled
with the array of values and `loadObjs` resumes after its `await`. -/
def promiseAll_onFulfilled (s : State F) : State F :=
  match s.joined with
  | PromiseState.pending =>
    match allValues s.loads with
    | some values => loadObjs_resume { s with joined := PromiseState.fulfilled values } values
    | none => s
  | _ => s

/-- The reaction of `Promise.all` to the rejection of one of its elements: a
promise that is still pending is rejected with that reason, and `loadObjs`
resumes in its `catch` block. -/
def promiseAll_onRejected (s : State F) (reason : String) : State F :=
  match s.joined with
  | PromiseState.pending => loadObjs_catch { s with joined := PromiseState.rejected reason } reason
  | _ => s

/-- The success callback of `loader.load` for the `i`-th name, followed by the
promise reactions it queues.  The loader has built the object `gltf_scene`.  A
load completes once: the loader calls nothing for a load that has completed. -/
def loadObj_onLoad (s : State F) (i : Nat) (gltf_scene : Object3D F) : State F :=
  match s.obj_filenames[i]?, s.loads[i]? with
  | some objName, some PromiseState.pending =>
    let h : Ref := s.heap.length
    promiseAll_onFulfilled
      { s with heap := s.heap ++ [gltf_scene],
               three_objs := Map_set s.three_objs objName h,
               console := s.console ++ [LogEntry.log (objName ++ " loaded")],
               loads := s.loads.set i (PromiseState.fulfilled h) }
  | _, _ => s

/-- The error callback of `loader.load` for the `i`-th name, followed by the
promise reactions it queues. -/
def loadObj_onError (s : State F) (i : Nat) (error : String) : State F :=
  match s.obj_filenames[i]?, s.loads[i]? with
  | some objName, some PromiseState.pending =>
    promiseAll_onRejected
      { s with console := s.console ++ [LogEntry.error ("Error loading " ++ objName ++ ":") error],
               loads := s.loads.set i (PromiseState.rejected error) }
      error
  | _, _ => s

/-- The synchronous part of `loadObjs(obj_filenames)`: `loadObj` is called on
every name in order, and the function suspends at its `await`. -/
def loadObjs (s : State F) (obj_filenames : List String) : State F :=
  { obj_filenames.foldl loadObj s with
      joined := PromiseState.pending, loadObjs_result := PromiseState.pending }

/-! ## Objects created by the script -/

/-- The position and rotation of a new object. -/
def Vec3.zero (M : JSMath F) : Vec3 F := ⟨M.num 0, M.num 0, M.num 0⟩

/-- The scale of a new object. -/
def Vec3.one (M : JSMath F) : Vec3 F := ⟨M.num 1, M.num 1, M.num 1⟩

/-- The object `new THREE.Mesh(geometry, material)`: one node, a mesh with a
fresh opaque material. -/
def newMesh (M : JSMath F) : Object3D F :=
  { position := Vec3.zero M, rotation := Vec3.zero M, scale := Vec3.one M,
    nodes := [{ isMesh := true, material := some { opacity := M.num 1, transparent := false } }] }

/-- A light: one node, not a mesh, without material. -/
def newLight (M : JSMath F) : Object3D F :=
  { position := Vec3.zero M, rotation := Vec3.zero M, scale := Vec3.one M,
    nodes := [{ isMesh := false, material := none }] }

/-- Store a new object in the heap; its handle is the old size of the heap. -/
def State.alloc (s : State F) (o : Object3D F) : State F × Ref :=
  ({ s with heap := s.heap ++ [o] }, s.heap.length)

/-- The function `createBox`. -/
def createBox (M : JSMath F) (s : State F) : State F :=
  let (s1, mesh) := s.alloc (newMesh M)
  { s1 with cube := some mesh, scene := scene_add s1.scene mesh }

/-- One iteration of the loop of `addStars`; `rand` gives the results of the
calls of `Math.random()` made by the script while it starts. -/
def addStar (M : JSMath F) (rand : Nat → F) (s : State F) (i : Nat) : State F :=
  let (s1, icosahedron) := s.alloc (newMesh M)
  let s2 := { s1 with scene := scene_add s1.scene icosahedron }
  let s3 := s2.modify icosahedron
    (fun o => { o with scale := o.scale.set (M.num (2/10)) (M.num (2/10)) (M.num (2/10)) })
  let coord := fun (k : Nat) => M.mul (M.sub (rand (3 * i + k)) (M.num (5/10))) (M.num 100)
  let s4 := s3.modify icosahedron
    (fun o => { o with position := o.position.set (coord 0) (coord 1) (coord 2) })
  { s4 with starArray := s4.starArray ++ [icosahedron] }

/-- The function `addStars`: a hundred icosahedra at random positions. -/
def addStars (M : JSMath F) (rand : Nat → F) (s : State F) : State F :=
  (List.range 100).foldl (addStar M rand) s

/-- The function `addLights`. -/
def addLights (M : JSMath F) (s : State F) : State F :=
  let (s1, directionalLight) := s.alloc (newLight M)
  let s2 := s1.modify directionalLight
    (fun o => { o with position := o.position.set (M.num 5) (M.num 10) (M.num (75/10)) })
  let s3 := { s2 with scene := scene_add s2.scene directionalLight }
  let (s4, ambientLight) := s3.alloc (newLight M)
  { s4 with scene := scene_add s4.scene ambientLight }

/-! ## The functions called every frame and by the buttons -/

/-- The result of a call that may throw: the state it leaves, and the exception
when one was thrown. -/
structure Completion (F : Type) where
  state : State F
  thrown : Option String

/-- The function `rotateStars`. -/
def rotateStars (M : JSMath F) (s : State F) : State F :=
  s.starArray.foldl
    (fun st star =>
      let st1 := st.modify star
        (fun o => { o with rotation := { o.rotation with x := M.add o.rotation.x (M.num (1/10)) } })
      st1.modify star
        (fun o => { o with rotation := { o.rotation with y := M.add o.rotation.y (M.num (1/10)) } }))
    s

/-- The function `toggleCubeRotation`. -/
def toggleCubeRotation (s : State F) : State F :=
  { s with rotation_enabled := !s.rotation_enabled }

/-- The function `rotateCube`; reading a property of `cube` throws while `cube`
is `undefined`. -/
def rotateCube (M : JSMath F) (s : State F) : Completion F :=
  if s.rotation_enabled then
    match s.cube with
    | some cube =>
      let s1 := s.modify cube
        (fun o => { o with rotation := { o.rotation with x := M.add o.rotation.x (M.num (1/100)) } })
      let s2 := s1.modify cube
        (fun o => { o with rotation := { o.rotation with y := M.add o.rotation.y (M.num (1/100)) } })
      ⟨s2, none⟩
    | none => ⟨s, some "TypeError: cube is undefined"⟩
  else ⟨s, none⟩

/-- The callback given to `traverse` by `toggleImportedOpacity`. -/
def setNodeOpacity (opacity : F) (child : Node F) : Node F :=
  match child.isMesh, child.material with
  | true, some material =>
    { child with material := some { material with opacity := opacity, transparent := true } }
  | _, _ => child

/-- The function `toggleImportedOpacity`. -/
def toggleImportedOpacity (M : JSMath F) (s : State F) : State F :=
  let opacity := if M.looseEq s.opacity (M.num 1) then M.num 0 else M.num 1
  s.three_objs.foldl
    (fun st entry => st.modify entry.2
      (fun obj => { obj with nodes := obj.nodes.map (setNodeOpacity st.opacity) }))
    { s with opacity := opacity }

/-- The callback of the `forEach` of `transformThreeObjs`, run on the entries
of `three_objs` in order; `rnd k` is the result of the `k`-th call of
`Math.random()`. -/
def transformEach (M : JSMath F) (rnd : Nat → F) :
    List (String × Ref) → Nat → State F → State F
  | [], _, s => s
  | (_, obj) :: rest, k, s =>
    let s1 := s.modify obj
      (fun o => { o with scale := o.scale.set (M.num (3/10)) (M.num (3/10)) (M.num (3/10)) })
    let offset := M.mul (M.sub (rnd k) (M.num (5/10))) (M.num 6)
    let s2 := { s1 with offset := some offset }
    let s3 := s2.modify obj (fun o => { o with position := o.position.set offset offset offset })
    let s4 := s3.modify obj (fun o => { o with rotation := o.rotation.set offset offset offset })
    transformEach M rnd rest (k + 1) s4

/-- The function `transformThreeObjs`.  Reading `.scale` or `.position` of the
result of `three_objs.get` throws when the key is absent. -/
def transformThreeObjs (M : JSMath F) (rnd : Nat → F) (s : State F) : Completion F :=
  if s.all_objs_loaded && !s.transformed then
    let s1 := transformEach M rnd s.three_objs 0 s
    match Map_get s1.three_objs "hoop" with
    | none => ⟨s1, some "TypeError: three_objs.get(...) is undefined"⟩
    | some hoop =>
      let s2 := s1.modify hoop
        (fun o => { o with scale := o.scale.set (M.num 3) (M.num 3) (M.num 3) })
      match Map_get s2.three_objs "spaceshuttle" with
      | none => ⟨s2, some "TypeError: three_objs.get(...) is undefined"⟩
      | some shuttle =>
        let s3 := s2.modify shuttle
          (fun o => { o with scale := o.scale.set (M.num (2/1000)) (M.num (2/1000)) (M.num (2/1000)) })
        let s4 := s3.modify shuttle
          (fun o => { o with position := o.position.set (M.num 0) (M.num 5) (M.num 0) })
        let s5 := s4.modify shuttle
          (fun o => { o with rotation := o.rotation.set (M.num 0) (M.num 5) (M.num 0) })
        ⟨{ s5 with transformed := true }, none⟩
  else ⟨s, none⟩

/-- The function `animateSpaceShuttle`. -/
def animateSpaceShuttle (M : JSMath F) (s : State F) : State F :=
  if s.all_objs_loaded then
    match Map_get s.three_objs "spaceshuttle" with
    | some shuttle =>
      let s1 := s.modify shuttle (fun o => { o with position :=
        { o.position with x := M.mul (M.sin s.spaceShuttleTime) (M.num 5) } })
      let s2 := s1.modify shuttle (fun o => { o with position :=
        { o.position with z := M.mul (M.cos s.spaceShuttleTime) (M.num 5) } })
      let s3 := s2.modify shuttle (fun o => { o with position := { o.position with y := M.num 0 } })
      let s4 := s3.modify shuttle (fun o => { o with rotation :=
        { o.rotation with y := M.add s.spaceShuttleTime (M.div M.PI (M.num 2)) } })
      { s4 with spaceShuttleTime := M.add s.spaceShuttleTime (M.num (1/100)) }
    | none => s
  else s

/-- The function `animate`, as far as the script's state goes: the four calls
in order, the first exception ending the frame. -/
def animate (M : JSMath F) (rnd : Nat → F) (s : State F) : Completion F :=
  let s1 := rotateStars M s
  let c2 := rotateCube M s1
  match c2.thrown with
  | some e => ⟨c2.state, some e⟩
  | none =>
    let s3 := animateSpaceShuttle M c2.state
    transformThreeObjs M rnd s3

/-- The function `onWindowResize`; the canvas is `width` by `height`. -/
def onWindowResize (M : JSMath F) (width height : F) (s : State F) : State F :=
  { s with camera_aspect := M.div width height, renderer_size := (width, height) }

/-! ## The run of the script -/

/-- The globals after their initialisers, before any function is called; the
canvas is `width` by `height`. -/
def globals (M : JSMath F) (width height : F) : State F :=
  { heap := [], scene := [],
    camera_position_z := M.num 10,
    camera_aspect := M.div width height,
    renderer_size := (width, height),
    obj_filenames := [],
    three_objs := [],
    requests := [],
    loads := [],
    joined := PromiseState.pending,
    loadObjs_result := PromiseState.pending,
    all_objs_loaded := false,
    cube := none,
    starArray := [],
    rotation_enabled := true,
    opacity := M.num 1,
    offset := none,
    transformed := false,
    spaceShuttleTime := M.num 0,
    orbitRadius := M.num 5,
    console := [] }

/-- What the host supplies while the script starts: the canvas size and the
results of `Math.random()`. -/
structure Host (F : Type) where
  width : F
  height : F
  rand : Nat → F

/-- The synchronous run of the script on the names `names`, up to the end of
its top level: `loadObjs`, `createBox`, `addStars`, `addLights`, and the first
call of `animate`. -/
def script (M : JSMath F) (host : Host F) (names : List String) : State F :=
  let s0 := { globals M host.width host.height with obj_filenames := names }
  let s1 := loadObjs s0 names
  let s2 := createBox M s1
  let s3 := addStars M host.rand s2
  let s4 := addLights M s3
  (animate M (fun k => host.rand (300 + k)) s4).state

/-- The state when the script has started: the top level has run and the
promise reactions it queued have run (`Promise.all` of no promise is fulfilled
at once, so that `loadObjs` resumes then). -/
def startup (M : JSMath F) (host : Host F) (names : List String) : State F :=
  promiseAll_onFulfilled (script M host names)

/-- A callback invoked by the host. -/
inductive Event (F : Type) where
  /-- The load of the `i`-th name succeeded with the object `gltf_scene`. -/
  | loadSucceeded (i : Nat) (gltf_scene : Object3D F) : Event F
  /-- The load of the `i`-th name failed. -/
  | loadFailed (i : Nat) (error : String) : Event F
  /-- An animation frame: a call of `animate`. -/
  | frame (rnd : Nat → F) : Event F
  | callRotateStars : Event F
  | callRotateCube : Event F
  | callAnimateSpaceShuttle : Event F
  | callTransformThreeObjs (rnd : Nat → F) : Event F
  /-- A click on the button "Toggle Cube Rotation". -/
  | clickToggleCubeRotation : Event F
  /-- A click on the button "Toggle Imported Object Opacity". -/
  | clickToggleImportedOpacity : Event F
  /-- The window was resized. -/
  | resize (width height : F) : Event F

/-- One transition: the host invokes a callback; an exception thrown by the
callback ends it and leaves the state it reached. -/
def step (M : JSMath F) (s : State F) : Event F → State F
  | Event.loadSucceeded i gltf_scene => loadObj_onLoad s i gltf_scene
  | Event.loadFailed i error => loadObj_onError s i error
  | Event.frame rnd => (animate M rnd s).state
  | Event.callRotateStars => rotateStars M s
  | Event.callRotateCube => (rotateCube M s).state
  | Event.callAnimateSpaceShuttle => animateSpaceShuttle M s
  | Event.callTransformThreeObjs rnd => (transformThreeObjs M rnd s).state
  | Event.clickToggleCubeRotation => toggleCubeRotation s
  | Event.clickToggleImportedOpacity => toggleImportedOpacity M s
  | Event.resize width height => onWindowResize M width height s

/-- The state after a sequence of callbacks. -/
def run (M : JSMath F) (s : State F) (events : List (Event F)) : State F :=
  events.foldl (step M) s

/-- The states the script reaches on the names `names`. -/
def Reachable (M : JSMath F) (host : Host F) (names : List String) (s : State F) : Prop :=
  ∃ events : List (Event F), s = run M (startup M host names) events

/-- The names loaded by the script as shipped. -/
def shipped_filenames : List String := ["basketball", "hoop", "spaceshuttle"]

/-- The lookup `three_objs.get(identifier)`: the state it leaves and its
completion, which is always a return (`Except.ok`), of the handle or of
`undefined` (`none`). -/
def three_objs_get (s : State F) (identifier : String) : State F × Except String (Option Ref) :=
  (s, Except.ok (Map_get s.three_objs identifier))

/-! ## Symbolic numbers

To run the model on concrete inputs, numbers are interpreted as the expressions
that compute them. -/

/-- A number as the expression that computes it. -/
inductive Sym where
  | num (q : ℚ) : Sym
  | add (a b : Sym) : Sym
  | sub (a b : Sym) : Sym
  | mul (a b : Sym) : Sym
  | div (a b : Sym) : Sym
  | sin (a : Sym) : Sym
  | cos (a : Sym) : Sym
  | PI : Sym
  /-- The result of the `k`-th call of `Math.random()` in a callback. -/
  | random (k : Nat) : Sym
  /-- A value supplied by the host: the canvas width or height. -/
  | host (name : String) : Sym
  deriving DecidableEq

/-- The symbolic interpretation of the number operations. -/
def symMath : JSMath Sym :=
  { num := Sym.num, add := Sym.add, sub := Sym.sub, mul := Sym.mul, div := Sym.div,
    sin := Sym.sin, cos := Sym.cos, PI := Sym.PI, looseEq := fun a b => decide (a = b) }

/-- The symbolic host. -/
def symHost : Host Sym :=
  { width := Sym.host "clientWidth", height := Sym.host "clientHeight", rand := Sym.random }

/-- A loaded model: a group with one mesh below it. -/
def sampleModel : Object3D Sym :=
  { position := Vec3.zero symMath, rotation := Vec3.zero symMath, scale := Vec3.one symMath,
    nodes := [{ isMesh := false, material := none },
              { isMesh := true, material := some { opacity := Sym.num 1, transparent := false } }] }

/-! ## Sample runs -/

/-- The state in which the script starts on its own names. -/
def shippedStart : State Sym := startup symMath symHost shipped_filenames

/-- The three loads succeed, out of order, between frames and clicks. -/
def allLoaded : State Sym :=
  run symMath shippedStart
    [Event.loadSucceeded 1 sampleModel, Event.frame Sym.random, Event.loadSucceeded 0 sampleModel,
     Event.clickToggleImportedOpacity, Event.loadSucceeded 2 sampleModel, Event.frame Sym.random]

/-- The load of "hoop" fails first, while the two other loads are outstanding. -/
def firstFailed : State Sym :=
  run symMath shippedStart [Event.loadFailed 1 "404"]

/-- The load of "hoop" fails between the two other loads, which succeed. -/
def oneFailed : State Sym :=
  run symMath shippedStart
    [Event.loadSucceeded 0 sampleModel, Event.loadFailed 1 "404", Event.frame Sym.random,
     Event.loadSucceeded 2 sampleModel]

/-- The three loads have succeeded, in order, and no frame has run since. -/
def justLoaded : State Sym :=
  run symMath shippedStart
    [Event.loadSucceeded 0 sampleModel, Event.loadSucceeded 1 sampleModel,
     Event.loadSucceeded 2 sampleModel]

/-! ## The part of the state the loader works on -/

/-- The fields of the state that `loadObj` and `loadObjs` read or write, and
the size of the heap. -/
structure LoaderView where
  heapSize : Nat
  scene : List Ref
  obj_filenames : List String
  three_objs : List (String × Ref)
  requests : List String
  loads : List (PromiseState Ref)
  joined : PromiseState (List Ref)
  loadObjs_result : PromiseState Unit
  all_objs_loaded : Bool
  console : List LogEntry

/-- The loader's view of a state. -/
def State.view (s : State F) : LoaderView :=
  { heapSize := s.heap.length, scene := s.scene, obj_filenames := s.obj_filenames,
    three_objs := s.three_objs, requests := s.requests, loads := s.loads, joined := s.joined,
    loadObjs_result := s.loadObjs_result, all_objs_loaded := s.all_objs_loaded,
    console := s.console }

/-- The handles of the fulfilled loads, in index order. -/
def loadedHandles : List (PromiseState Ref) → List Ref
  | [] => []
  | PromiseState.fulfilled h :: ps => h :: loadedHandles ps
  | _ :: ps => loadedHandles ps

/-- The notification of `loadObjs` on its success path. -/
def batchComplete : LogEntry := LogEntry.log "All objects loaded!"

/-- Every load has finished, with success or failure. -/
def allSettled (loads : List (PromiseState Ref)) : Bool :=
  loads.all (fun p => p != PromiseState.pending)

/-- The function `loadObjs` has concluded: its promise is no longer pending. -/
def State.concluded (s : State F) : Bool :=
  s.loadObjs_result != PromiseState.pending

/-- The notification of `loadObjs` on its failure path. -/
def batchError (error : String) : LogEntry := LogEntry.error "Error loading some objects:" error

/-- The notification of `loadObj` on the failure of one load. -/
def loadError (objName error : String) : LogEntry :=
  LogEntry.error ("Error loading " ++ objName ++ ":") error

/-- What the loads, the map and the console have to do with each other in a
state the script reaches on the names `names`, the heap having had `size0`
objects when the top level of the script ended. -/
structure CoreInv (names : List String) (size0 : Nat) (v : LoaderView) : Prop where
  names_eq : v.obj_filenames = names
  len : v.loads.length = names.length
  requests_eq : v.requests = names.map assetPath
  heap_ge : size0 ≤ v.heapSize
  ref_range : ∀ (i : Nat) (h : Ref), v.loads[i]? = some (PromiseState.fulfilled h) → size0 ≤ h ∧ h < v.heapSize
  ref_inj : ∀ (i j : Nat) (h : Ref), v.loads[i]? = some (PromiseState.fulfilled h) →
    v.loads[j]? = some (PromiseState.fulfilled h) → i = j
  key_of_loaded : ∀ (i : Nat) (h : Ref), v.loads[i]? = some (PromiseState.fulfilled h) →
    ∃ name, names[i]? = some name ∧ (Map_get v.three_objs name).isSome = true
  loaded_of_key : ∀ (name : String) (h : Ref), Map_get v.three_objs name = some h →
    ∃ i : Nat, names[i]? = some name ∧ v.loads[i]? = some (PromiseState.fulfilled h)
  err_logged : ∀ (i : Nat) (e : String), v.loads[i]? = some (PromiseState.rejected e) →
    ∃ name, names[i]? = some name ∧ loadError name e ∈ v.console

/-- What the state of `Promise.all` says about the rest of the loader's view;
`base` is the scene when the top level of the script ended. -/
def JoinInv (base : List Ref) (v : LoaderView) : Prop :=
  match v.joined with
  | PromiseState.pending =>
    v.loadObjs_result = PromiseState.pending ∧ v.all_objs_loaded = false ∧ v.scene = base ∧
    allValues v.loads = none ∧ (∀ (i : Nat) (e : String), v.loads[i]? ≠ some (PromiseState.rejected e)) ∧
    v.console.count batchComplete = 0
  | PromiseState.fulfilled values =>
    v.loadObjs_result = PromiseState.fulfilled () ∧ v.all_objs_loaded = true ∧
    v.scene = base ++ values ∧ allValues v.loads = some values ∧
    v.console.count batchComplete = 1
  | PromiseState.rejected e =>
    v.loadObjs_result = PromiseState.fulfilled () ∧ v.all_objs_loaded = false ∧ v.scene = base ∧
    (∃ i : Nat, v.loads[i]? = some (PromiseState.rejected e)) ∧
    v.console.count batchComplete = 0 ∧ batchError e ∈ v.console

/-- The invariant of the loader. -/
def Inv (names : List String) (base : List Ref) (size0 : Nat) (v : LoaderView) : Prop :=
  CoreInv names size0 v ∧ JoinInv base v ∧ ∀ r ∈ base, r < size0

/-- The loader's view while the top level of the script runs, after the call
of `loadObjs`: every load is pending, the map and the console are empty, and the
scene holds handles of the heap. -/
structure Starting (names : List String) (v : LoaderView) : Prop where
  names_eq : v.obj_filenames = names
  map_empty : v.three_objs = []
  requests_eq : v.requests = names.map assetPath
  loads_eq : v.loads = List.replicate names.length PromiseState.pending
  joined_eq : v.joined = PromiseState.pending
  result_eq : v.loadObjs_result = PromiseState.pending
  flag_eq : v.all_objs_loaded = false
  console_eq : v.console = []
  scene_lt : ∀ r ∈ v.scene, r < v.heapSize

/-! ## Lists, maps and promises -/

theorem Map_get_set_self (m : List (String × Ref)) (k : String) (v : Ref) :
    Map_get (Map_set m k v) k = some v := by
  induction m with
  | nil => simp [Map_set, Map_get]
  | cons e m ih =>
    obtain ⟨k0, v0⟩ := e
    by_cases h : k0 = k <;> simp [Map_set, Map_get, h, ih]

theorem Map_get_set_ne (m : List (String × Ref)) (k k1 : String) (v : Ref) (hne : k ≠ k1) :
    Map_get (Map_set m k v) k1 = Map_get m k1 := by
  induction m with
  | nil => simp [Map_set, Map_get, hne]
  | cons e m ih =>
    obtain ⟨k0, v0⟩ := e
    by_cases h : k0 = k
    · subst h
      simp [Map_set, Map_get, hne]
    · by_cases h1 : k0 = k1
      · subst h1
        simp [Map_set, Map_get, h]
      · simp [Map_set, Map_get, h, h1, ih]

theorem allValues_eq_some {l : List (PromiseState Ref)} {vs : List Ref} :
    allValues l = some vs ↔ l = vs.map PromiseState.fulfilled := by
  induction l generalizing vs with
  | nil => cases vs <;> simp [allValues]
  | cons p ps ih =>
    cases p with
    | pending => cases vs <;> simp [allValues]
    | rejected e => cases vs <;> simp [allValues]
    | fulfilled h =>
      cases vs with
      | nil => simp [allValues]
      | cons v vs =>
        simp only [allValues, Option.map_eq_some', List.map_cons, List.cons.injEq,
          PromiseState.fulfilled.injEq]
        constructor
        · rintro ⟨a, ha, hv, rfl⟩
          exact ⟨hv, ih.mp ha⟩
        · rintro ⟨rfl, hps⟩
          exact ⟨vs, ih.mpr hps, rfl, rfl⟩

theorem allValues_eq_none {l : List (PromiseState Ref)} (h : allValues l = none) :
    ∃ (i : Nat) (p : PromiseState Ref), l[i]? = some p ∧ ∀ v, p ≠ PromiseState.fulfilled v := by
  induction l with
  | nil => simp [allValues] at h
  | cons p ps ih =>
    cases p with
    | pending => exact ⟨0, PromiseState.pending, by simp, fun v hv => by cases hv⟩
    | rejected e => exact ⟨0, PromiseState.rejected e, by simp, fun v hv => by cases hv⟩
    | fulfilled v =>
      simp only [allValues, Option.map_eq_none'] at h
      obtain ⟨i, p, hp, hne⟩ := ih h
      exact ⟨i + 1, p, by simpa using hp, hne⟩

theorem foldl_scene_add (vs base : List Ref) (hnd : vs.Nodup) (hfresh : ∀ v ∈ vs, v ∉ base) :
    vs.foldl scene_add base = base ++ vs := by
  induction vs generalizing base with
  | nil => simp
  | cons v vs ih =>
    have hv : v ∉ base := hfresh v (List.mem_cons_self _ _)
    have hadd : scene_add base v = base ++ [v] := by
      unfold scene_add
      rw [List.filter_eq_self.mpr]
      intro a ha
      have : a ≠ v := fun h => hv (h ▸ ha)
      simpa using this
    rw [List.foldl_cons, hadd, ih _ (List.nodup_cons.mp hnd).2]
    · simp
    · intro w hw hmem
      rcases List.mem_append.mp hmem with h | h
      · exact hfresh w (List.mem_cons_of_mem _ hw) h
      · have : w = v := by simpa using h
        exact (List.nodup_cons.mp hnd).1 (this ▸ hw)

theorem getElem?_set_iff {α : Type} {l : List α} {i j : Nat} {a p q : α} (hi : l[i]? = some q) :
    (l.set i a)[j]? = some p ↔ (j = i ∧ p = a) ∨ (j ≠ i ∧ l[j]? = some p) := by
  have hlt : i < l.length := (List.getElem?_eq_some.mp hi).1
  rw [List.getElem?_set]
  by_cases h : i = j
  · subst h
    simp [hlt, eq_comm]
  · have h1 : j ≠ i := fun e => h e.symm
    simp [h, h1]

theorem loaded_ne_batchComplete (objName : String) :
    LogEntry.log (objName ++ " loaded") ≠ batchComplete := by
  intro h
  have h1 : objName ++ " loaded" = "All objects loaded!" := by
    simpa [batchComplete] using h
  have h2 := congrArg (fun t : String => t.data.reverse.head?) h1
  simp at h2

theorem count_batchComplete_loaded (console : List LogEntry) (objName : String) :
    (console ++ [LogEntry.log (objName ++ " loaded")]).count batchComplete =
      console.count batchComplete := by
  have h := loaded_ne_batchComplete objName
  simp [List.count_append, List.count_cons, h]

theorem count_batchComplete_error (console : List LogEntry) (msg e : String) :
    (console ++ [LogEntry.error msg e]).count batchComplete = console.count batchComplete := by
  simp [List.count_append, List.count_cons, batchComplete]

/-! ## The load callbacks keep the invariant -/

theorem coreInv_onLoad {names : List String} {size0 : Nat} {v : LoaderView}
    (hc : CoreInv names size0 v) {i : Nat} {objName : String}
    (hn : names[i]? = some objName) (hl : v.loads[i]? = some PromiseState.pending) :
    CoreInv names size0
      { v with heapSize := v.heapSize + 1,
               three_objs := Map_set v.three_objs objName v.heapSize,
               console := v.console ++ [LogEntry.log (objName ++ " loaded")],
               loads := v.loads.set i (PromiseState.fulfilled v.heapSize) } := by
  refine ⟨hc.names_eq, ?_, hc.requests_eq, ?_, ?_, ?_, ?_, ?_, ?_⟩
  · simpa using hc.len
  · exact Nat.le_succ_of_le hc.heap_ge
  · intro j h hj
    rcases (getElem?_set_iff hl).mp hj with ⟨_, hh⟩ | ⟨_, hold⟩
    · cases hh
      exact ⟨hc.heap_ge, Nat.lt_succ_self _⟩
    · exact ⟨(hc.ref_range j h hold).1, Nat.lt_succ_of_lt (hc.ref_range j h hold).2⟩
  · intro j k h hj hk
    rcases (getElem?_set_iff hl).mp hj with ⟨rfl, hh⟩ | ⟨hji, hold⟩
    · rcases (getElem?_set_iff hl).mp hk with ⟨rfl, _⟩ | ⟨_, hold1⟩
      · rfl
      · cases hh
        exact absurd (hc.ref_range k _ hold1).2 (Nat.lt_irrefl _)
    · rcases (getElem?_set_iff hl).mp hk with ⟨rfl, hh⟩ | ⟨_, hold1⟩
      · cases hh
        exact absurd (hc.ref_range j _ hold).2 (Nat.lt_irrefl _)
      · exact hc.ref_inj j k h hold hold1
  · intro j h hj
    rcases (getElem?_set_iff hl).mp hj with ⟨rfl, _⟩ | ⟨_, hold⟩
    · exact ⟨objName, hn, by simp [Map_get_set_self]⟩
    · obtain ⟨name, hname, hget⟩ := hc.key_of_loaded j h hold
      refine ⟨name, hname, ?_⟩
      by_cases hk : objName = name
      · subst hk
        simp [Map_get_set_self]
      · simpa [Map_get_set_ne _ _ _ _ hk] using hget
  · intro name h hget
    by_cases hk : objName = name
    · subst hk
      rw [Map_get_set_self] at hget
      cases hget
      exact ⟨i, hn, (getElem?_set_iff hl).mpr (Or.inl ⟨rfl, rfl⟩)⟩
    · rw [Map_get_set_ne _ _ _ _ hk] at hget
      obtain ⟨j, hname, hj⟩ := hc.loaded_of_key name h hget
      have hji : j ≠ i := by
        rintro rfl
        rw [hl] at hj
        cases hj
      exact ⟨j, hname, (getElem?_set_iff hl).mpr (Or.inr ⟨hji, hj⟩)⟩
  · intro j e hj
    rcases (getElem?_set_iff hl).mp hj with ⟨_, hh⟩ | ⟨_, hold⟩
    · cases hh
    · obtain ⟨name, hname, hmem⟩ := hc.err_logged j e hold
      exact ⟨name, hname, List.mem_append_left _ hmem⟩

theorem coreInv_onError {names : List String} {size0 : Nat} {v : LoaderView}
    (hc : CoreInv names size0 v) {i : Nat} {objName : String} (error : String)
    (hn : names[i]? = some objName) (hl : v.loads[i]? = some PromiseState.pending) :
    CoreInv names size0
      { v with console := v.console ++ [loadError objName error],
               loads := v.loads.set i (PromiseState.rejected error) } := by
  refine ⟨hc.names_eq, ?_, hc.requests_eq, hc.heap_ge, ?_, ?_, ?_, ?_, ?_⟩
  · simpa using hc.len
  · intro j h hj
    rcases (getElem?_set_iff hl).mp hj with ⟨_, hh⟩ | ⟨_, hold⟩
    · cases hh
    · exact hc.ref_range j h hold
  · intro j k h hj hk
    rcases (getElem?_set_iff hl).mp hj with ⟨_, hh⟩ | ⟨_, hold⟩
    · cases hh
    · rcases (getElem?_set_iff hl).mp hk with ⟨_, hh⟩ | ⟨_, hold1⟩
      · cases hh
      · exact hc.ref_inj j k h hold hold1
  · intro j h hj
    rcases (getElem?_set_iff hl).mp hj with ⟨_, hh⟩ | ⟨_, hold⟩
    · cases hh
    · exact hc.key_of_loaded j h hold
  · intro name h hget
    obtain ⟨j, hname, hj⟩ := hc.loaded_of_key name h hget
    have hji : j ≠ i := by
      rintro rfl
      rw [hl] at hj
      cases hj
    exact ⟨j, hname, (getElem?_set_iff hl).mpr (Or.inr ⟨hji, hj⟩)⟩
  · intro j e hj
    rcases (getElem?_set_iff hl).mp hj with ⟨rfl, hh⟩ | ⟨_, hold⟩
    · cases hh
      exact ⟨objName, hn, List.mem_append_right _ (List.mem_singleton_self _)⟩
    · obtain ⟨name, hname, hmem⟩ := hc.err_logged j e hold
      exact ⟨name, hname, List.mem_append_left _ hmem⟩

/-- The values of `Promise.all` are distinct handles created after the top
level of the script ended. -/
theorem values_fresh {names : List String} {size0 : Nat} {v : LoaderView}
    (hc : CoreInv names size0 v) {values : List Ref} (hv : allValues v.loads = some values) :
    values.Nodup ∧ ∀ r ∈ values, size0 ≤ r := by
  have hl : v.loads = values.map PromiseState.fulfilled := allValues_eq_some.mp hv
  have hget : ∀ (i : Nat) (r : Ref), values[i]? = some r →
      v.loads[i]? = some (PromiseState.fulfilled r) := by
    intro i r hi
    rw [hl, List.getElem?_map, hi]
    rfl
  constructor
  · rw [List.nodup_iff_getElem?_ne_getElem?]
    intro i j hij hj heq
    have hi : i < values.length := Nat.lt_trans hij hj
    have h1 := hget i _ (List.getElem?_eq_getElem hi)
    have h2 := hget j values[i] (by rw [← heq]; exact List.getElem?_eq_getElem hi)
    exact absurd (hc.ref_inj i j _ h1 h2) (Nat.ne_of_lt hij)
  · intro r hr
    obtain ⟨i, hi⟩ := List.mem_iff_getElem?.mp hr
    exact (hc.ref_range i r (hget i r hi)).1

theorem joinInv_pending {base : List Ref} {v : LoaderView} (h : v.joined = PromiseState.pending) :
    JoinInv base v ↔
      (v.loadObjs_result = PromiseState.pending ∧ v.all_objs_loaded = false ∧ v.scene = base ∧
        allValues v.loads = none ∧
        (∀ (i : Nat) (e : String), v.loads[i]? ≠ some (PromiseState.rejected e)) ∧
        v.console.count batchComplete = 0) := by
  unfold JoinInv
  rw [h]

theorem joinInv_fulfilled {base : List Ref} {v : LoaderView} {values : List Ref}
    (h : v.joined = PromiseState.fulfilled values) :
    JoinInv base v ↔
      (v.loadObjs_result = PromiseState.fulfilled () ∧ v.all_objs_loaded = true ∧
        v.scene = base ++ values ∧ allValues v.loads = some values ∧
        v.console.count batchComplete = 1) := by
  unfold JoinInv
  rw [h]

theorem joinInv_rejected {base : List Ref} {v : LoaderView} {e : String}
    (h : v.joined = PromiseState.rejected e) :
    JoinInv base v ↔
      (v.loadObjs_result = PromiseState.fulfilled () ∧ v.all_objs_loaded = false ∧
        v.scene = base ∧ (∃ i : Nat, v.loads[i]? = some (PromiseState.rejected e)) ∧
        v.console.count batchComplete = 0 ∧ batchError e ∈ v.console) := by
  unfold JoinInv
  rw [h]

/-- The reaction of `Promise.all` to a fulfilment, run in a state where the
promise is pending and no load is rejected, establishes the invariant. -/
theorem inv_promiseAll_onFulfilled {names : List String} {base : List Ref} {size0 : Nat}
    (s : State F) (hc : CoreInv names size0 s.view) (hb : ∀ r ∈ base, r < size0)
    (hp : s.joined = PromiseState.pending) (hres : s.loadObjs_result = PromiseState.pending)
    (hall : s.all_objs_loaded = false) (hscene : s.scene = base)
    (hnorej : ∀ (i : Nat) (e : String), s.loads[i]? ≠ some (PromiseState.rejected e))
    (hcount : s.console.count batchComplete = 0) :
    Inv names base size0 (promiseAll_onFulfilled s).view := by
  unfold promiseAll_onFulfilled
  rw [hp]
  simp only []
  cases hv : allValues s.loads with
  | none =>
    simp only []
    refine ⟨hc, ?_, hb⟩
    exact (joinInv_pending (v := s.view) hp).mpr ⟨hres, hall, hscene, hv, hnorej, hcount⟩
  | some values =>
    simp only []
    obtain ⟨hnd, hge⟩ := values_fresh hc hv
    have hfresh : ∀ r ∈ values, r ∉ base := fun r hr hmem =>
      absurd (hb r hmem) (Nat.not_lt.mpr (hge r hr))
    refine ⟨?_, ?_, hb⟩
    · exact ⟨hc.names_eq, hc.len, hc.requests_eq, hc.heap_ge, hc.ref_range, hc.ref_inj,
        hc.key_of_loaded, hc.loaded_of_key, fun i e hi => by
          obtain ⟨name, hname, hmem⟩ := hc.err_logged i e hi
          exact ⟨name, hname, List.mem_append_left _ hmem⟩⟩
    · refine (joinInv_fulfilled rfl).mpr ⟨rfl, rfl, ?_, hv, ?_⟩
      · show values.foldl scene_add s.scene = base ++ values
        rw [hscene]
        exact foldl_scene_add values base hnd hfresh
      · show (s.console ++ [batchComplete]).count batchComplete = 1
        simp [List.count_append, hcount]

theorem promiseAll_onFulfilled_settled (s : State F) (h : s.joined ≠ PromiseState.pending) :
    promiseAll_onFulfilled s = s := by
  unfold promiseAll_onFulfilled
  split
  · rename_i hp
    exact absurd hp h
  · rfl

theorem promiseAll_onRejected_settled (s : State F) (e : String)
    (h : s.joined ≠ PromiseState.pending) : promiseAll_onRejected s e = s := by
  unfold promiseAll_onRejected
  split
  · rename_i hp
    exact absurd hp h
  · rfl

theorem inv_loadObj_onLoad {names : List String} {base : List Ref} {size0 : Nat}
    (s : State F) (i : Nat) (gltf_scene : Object3D F) (h : Inv names base size0 s.view) :
    Inv names base size0 (loadObj_onLoad s i gltf_scene).view := by
  obtain ⟨hc, hj, hb⟩ := h
  unfold loadObj_onLoad
  split
  · rename_i objName hn hl
    have hn1 : names[i]? = some objName := by
      rw [← hc.names_eq]
      exact hn
    have hl1 : s.view.loads[i]? = some PromiseState.pending := hl
    have hc1 := coreInv_onLoad hc hn1 hl1
    have hview : ∀ t : State F, t.heap = s.heap ++ [gltf_scene] → t.scene = s.scene →
        t.obj_filenames = s.obj_filenames →
        t.three_objs = Map_set s.three_objs objName s.heap.length → t.requests = s.requests →
        t.loads = s.loads.set i (PromiseState.fulfilled s.heap.length) → t.joined = s.joined →
        t.loadObjs_result = s.loadObjs_result → t.all_objs_loaded = s.all_objs_loaded →
        t.console = s.console ++ [LogEntry.log (objName ++ " loaded")] →
        Inv names base size0 (promiseAll_onFulfilled t).view := by
      intro t h1 h2 h3 h4 h5 h6 h7 h8 h9 h10
      have hct : CoreInv names size0 t.view := by
        have : t.view =
            { s.view with
              heapSize := s.view.heapSize + 1,
              three_objs := Map_set s.view.three_objs objName s.view.heapSize,
              console := s.view.console ++ [LogEntry.log (objName ++ " loaded")],
              loads := s.view.loads.set i (PromiseState.fulfilled s.view.heapSize) } := by
          simp [State.view, h1, h2, h3, h4, h5, h6, h7, h8, h9, h10]
        rw [this]
        exact hc1
      cases hjs : s.joined with
      | pending =>
        obtain ⟨hres, hall, hscene, _, hnorej, hcount⟩ := (joinInv_pending (v := s.view) hjs).mp hj
        refine inv_promiseAll_onFulfilled t hct hb (h7.trans hjs) (h8.trans hres) (h9.trans hall)
          (h2.trans hscene) ?_ ?_
        · intro j e hje
          rw [h6] at hje
          rcases (getElem?_set_iff hl).mp hje with ⟨_, hh⟩ | ⟨_, hold⟩
          · cases hh
          · exact hnorej j e hold
        · rw [h10, count_batchComplete_loaded]
          exact hcount
      | fulfilled values =>
        obtain ⟨_, _, _, hv, _⟩ := (joinInv_fulfilled (v := s.view) hjs).mp hj
        have hmap : s.loads = values.map PromiseState.fulfilled := allValues_eq_some.mp hv
        rw [hmap, List.getElem?_map] at hl
        cases hvi : values[i]? with
        | none => simp [hvi] at hl
        | some r => simp [hvi] at hl
      | rejected e =>
        obtain ⟨hres, hall, hscene, ⟨j, hrej⟩, hcount, hmem⟩ :=
          (joinInv_rejected (v := s.view) hjs).mp hj
        have htj : t.joined = PromiseState.rejected e := h7.trans hjs
        rw [promiseAll_onFulfilled_settled t (by rw [htj]; exact fun hx => by cases hx)]
        refine ⟨hct, ?_, hb⟩
        refine (joinInv_rejected (v := t.view) htj).mpr
          ⟨h8.trans hres, h9.trans hall, h2.trans hscene, ⟨j, ?_⟩, ?_, ?_⟩
        · show t.loads[j]? = _
          rw [h6]
          refine (getElem?_set_iff hl).mpr (Or.inr ⟨?_, hrej⟩)
          rintro rfl
          have hx : s.loads[j]? = some (PromiseState.rejected e) := hrej
          rw [hl] at hx
          cases hx
        · show t.console.count batchComplete = 0
          rw [h10, count_batchComplete_loaded]
          exact hcount
        · show batchError e ∈ t.console
          rw [h10]
          exact List.mem_append_left _ hmem
    exact hview _ rfl rfl rfl rfl rfl rfl rfl rfl rfl rfl
  · exact ⟨hc, hj, hb⟩

theorem inv_loadObj_onError {names : List String} {base : List Ref} {size0 : Nat}
    (s : State F) (i : Nat) (error : String) (h : Inv names base size0 s.view) :
    Inv names base size0 (loadObj_onError s i error).view := by
  obtain ⟨hc, hj, hb⟩ := h
  unfold loadObj_onError
  split
  · rename_i objName hn hl
    have hn1 : names[i]? = some objName := by
      rw [← hc.names_eq]
      exact hn
    have hl1 : s.view.loads[i]? = some PromiseState.pending := hl
    have hc1 := coreInv_onError hc error hn1 hl1
    have hview : ∀ t : State F, t.heap = s.heap → t.scene = s.scene →
        t.obj_filenames = s.obj_filenames → t.three_objs = s.three_objs →
        t.requests = s.requests →
        t.loads = s.loads.set i (PromiseState.rejected error) → t.joined = s.joined →
        t.loadObjs_result = s.loadObjs_result → t.all_objs_loaded = s.all_objs_loaded →
        t.console = s.console ++ [loadError objName error] →
        Inv names base size0 (promiseAll_onRejected t error).view := by
      intro t h1 h2 h3 h4 h5 h6 h7 h8 h9 h10
      have hct : CoreInv names size0 t.view := by
        have : t.view =
            { s.view with
              console := s.view.console ++ [loadError objName error],
              loads := s.view.loads.set i (PromiseState.rejected error) } := by
          simp [State.view, h1, h2, h3, h4, h5, h6, h7, h8, h9, h10]
        rw [this]
        exact hc1
      have hti : t.loads[i]? = some (PromiseState.rejected error) := by
        rw [h6]
        exact (getElem?_set_iff hl).mpr (Or.inl ⟨rfl, rfl⟩)
      cases hjs : s.joined with
      | pending =>
        obtain ⟨hres, hall, hscene, _, hnorej, hcount⟩ := (joinInv_pending (v := s.view) hjs).mp hj
        have htj : t.joined = PromiseState.pending := h7.trans hjs
        unfold promiseAll_onRejected
        rw [htj]
        simp only []
        refine ⟨?_, ?_, hb⟩
        · exact ⟨hct.names_eq, hct.len, hct.requests_eq, hct.heap_ge, hct.ref_range, hct.ref_inj,
            hct.key_of_loaded, hct.loaded_of_key, fun j e hje => by
              obtain ⟨name, hname, hmem⟩ := hct.err_logged j e hje
              exact ⟨name, hname, List.mem_append_left _ hmem⟩⟩
        · refine (joinInv_rejected rfl).mpr
            ⟨rfl, h9.trans hall, h2.trans hscene, ⟨i, hti⟩, ?_, ?_⟩
          · show (t.console ++ [batchError error]).count batchComplete = 0
            rw [h10]
            simp only [batchError, loadError, count_batchComplete_error]
            exact hcount
          · show batchError error ∈ t.console ++ [batchError error]
            exact List.mem_append_right _ (List.mem_singleton_self _)
      | fulfilled values =>
        obtain ⟨_, _, _, hv, _⟩ := (joinInv_fulfilled (v := s.view) hjs).mp hj
        have hmap : s.loads = values.map PromiseState.fulfilled := allValues_eq_some.mp hv
        rw [hmap, List.getElem?_map] at hl
        cases hvi : values[i]? with
        | none => simp [hvi] at hl
        | some r => simp [hvi] at hl
      | rejected e =>
        obtain ⟨hres, hall, hscene, ⟨j, hrej⟩, hcount, hmem⟩ :=
          (joinInv_rejected (v := s.view) hjs).mp hj
        have htj : t.joined = PromiseState.rejected e := h7.trans hjs
        rw [promiseAll_onRejected_settled t error (by rw [htj]; exact fun hx => by cases hx)]
        refine ⟨hct, ?_, hb⟩
        refine (joinInv_rejected (v := t.view) htj).mpr
          ⟨h8.trans hres, h9.trans hall, h2.trans hscene, ⟨j, ?_⟩, ?_, ?_⟩
        · show t.loads[j]? = _
          rw [h6]
          refine (getElem?_set_iff hl).mpr (Or.inr ⟨?_, hrej⟩)
          rintro rfl
          have hx : s.loads[j]? = some (PromiseState.rejected e) := hrej
          rw [hl] at hx
          cases hx
        · show t.console.count batchComplete = 0
          rw [h10]
          simp only [loadError, count_batchComplete_error]
          exact hcount
        · show batchError e ∈ t.console
          rw [h10]
          exact List.mem_append_left _ hmem
    exact hview _ rfl rfl rfl rfl rfl rfl rfl rfl rfl rfl
  · exact ⟨hc, hj, hb⟩

/-! ## The frame and button callbacks leave the loader's view alone -/

theorem length_updateAt (f : Object3D F → Object3D F) (l : List (Object3D F)) (r : Ref) :
    (updateAt f l r).length = l.length := by
  induction l generalizing r with
  | nil => rfl
  | cons o os ih =>
    cases r with
    | zero => rfl
    | succ r => simp [updateAt, ih]

@[simp] theorem view_modify (s : State F) (r : Ref) (f : Object3D F → Object3D F) :
    (s.modify r f).view = s.view := by
  simp [State.modify, State.view, length_updateAt]

theorem view_foldl {α : Type} (f : State F → α → State F)
    (hf : ∀ st a, (f st a).view = st.view) (l : List α) (s : State F) :
    (l.foldl f s).view = s.view := by
  induction l generalizing s with
  | nil => rfl
  | cons a l ih => simp [List.foldl, ih, hf]

@[simp] theorem view_rotateStars (M : JSMath F) (s : State F) :
    (rotateStars M s).view = s.view := by
  unfold rotateStars
  exact view_foldl _ (fun st a => by simp) _ _

@[simp] theorem view_toggleCubeRotation (s : State F) :
    (toggleCubeRotation s).view = s.view := rfl

@[simp] theorem view_rotateCube (M : JSMath F) (s : State F) :
    (rotateCube M s).state.view = s.view := by
  unfold rotateCube
  split
  · split <;> simp
  · rfl

@[simp] theorem view_toggleImportedOpacity (M : JSMath F) (s : State F) :
    (toggleImportedOpacity M s).view = s.view := by
  unfold toggleImportedOpacity
  rw [view_foldl _ (fun st a => by simp)]
  rfl

theorem view_transformEach (M : JSMath F) (rnd : Nat → F) (m : List (String × Ref)) (k : Nat)
    (s : State F) : (transformEach M rnd m k s).view = s.view := by
  induction m generalizing k s with
  | nil => rfl
  | cons e m ih =>
    obtain ⟨name, obj⟩ := e
    simp only [transformEach]
    rw [ih, view_modify, view_modify]
    exact view_modify s obj _

@[simp] theorem view_transformThreeObjs (M : JSMath F) (rnd : Nat → F) (s : State F) :
    (transformThreeObjs M rnd s).state.view = s.view := by
  unfold transformThreeObjs
  split
  · simp only []
    split
    · exact view_transformEach M rnd _ _ _
    · split
      · simp [view_transformEach]
      · have h : ∀ (t : State F), ({ t with transformed := true } : State F).view = t.view :=
          fun _ => rfl
        simp [h, view_transformEach]
  · rfl

@[simp] theorem view_animateSpaceShuttle (M : JSMath F) (s : State F) :
    (animateSpaceShuttle M s).view = s.view := by
  unfold animateSpaceShuttle
  split
  · split
    · have h : ∀ (t : State F) (x : F), ({ t with spaceShuttleTime := x } : State F).view = t.view :=
        fun _ _ => rfl
      simp [h]
    · rfl
  · rfl

@[simp] theorem view_animate (M : JSMath F) (rnd : Nat → F) (s : State F) :
    (animate M rnd s).state.view = s.view := by
  unfold animate
  simp only []
  split <;> simp

@[simp] theorem view_onWindowResize (M : JSMath F) (width height : F) (s : State F) :
    (onWindowResize M width height s).view = s.view := rfl

/-! ## The invariant holds in every reachable state -/

/-- Every callback keeps the invariant. -/
theorem inv_step {names : List String} {base : List Ref} {size0 : Nat} (M : JSMath F)
    (s : State F) (e : Event F) (h : Inv names base size0 s.view) :
    Inv names base size0 (step M s e).view := by
  cases e with
  | loadSucceeded i gltf_scene => exact inv_loadObj_onLoad s i gltf_scene h
  | loadFailed i error => exact inv_loadObj_onError s i error h
  | frame rnd => simpa [step] using h
  | callRotateStars => simpa [step] using h
  | callRotateCube => simpa [step] using h
  | callAnimateSpaceShuttle => simpa [step] using h
  | callTransformThreeObjs rnd => simpa [step] using h
  | clickToggleCubeRotation => simpa [step] using h
  | clickToggleImportedOpacity => simpa [step] using h
  | resize width height => simpa [step] using h

theorem inv_run {names : List String} {base : List Ref} {size0 : Nat} (M : JSMath F)
    (events : List (Event F)) (s : State F) (h : Inv names base size0 s.view) :
    Inv names base size0 (run M s events).view := by
  induction events generalizing s with
  | nil => exact h
  | cons e es ih => exact ih (step M s e) (inv_step M s e h)

/-! ## The state in which the script starts -/

theorem foldl_loadObj (names : List String) (s : State F) :
    (names.foldl loadObj s).view =
      { s.view with
        requests := s.requests ++ names.map assetPath,
        loads := s.loads ++ List.replicate names.length PromiseState.pending } := by
  induction names generalizing s with
  | nil => simp [State.view]
  | cons n ns ih =>
    rw [List.foldl_cons, ih]
    simp [loadObj, State.view, List.replicate_succ]

theorem starting_loadObjs (M : JSMath F) (host : Host F) (names : List String) :
    Starting names
      (loadObjs { globals M host.width host.height with obj_filenames := names } names).view := by
  have h := foldl_loadObj names
    ({ globals M host.width host.height with obj_filenames := names } : State F)
  have hv : (loadObjs { globals M host.width host.height with obj_filenames := names } names).view =
      { (names.foldl loadObj
          ({ globals M host.width host.height with obj_filenames := names } : State F)).view with
        joined := PromiseState.pending, loadObjs_result := PromiseState.pending } := rfl
  rw [hv, h]
  constructor <;> simp [State.view, globals]

theorem scene_add_lt {children : List Ref} {n : Nat} (h : ∀ r ∈ children, r < n) :
    ∀ r ∈ scene_add children n, r < n + 1 := by
  intro r hr
  unfold scene_add at hr
  rcases List.mem_append.mp hr with h1 | h1
  · exact Nat.lt_succ_of_lt (h r (List.mem_filter.mp h1).1)
  · have : r = n := by simpa using h1
    rw [this]
    exact Nat.lt_succ_self n

theorem starting_createBox (M : JSMath F) {names : List String} (s : State F)
    (h : Starting names s.view) : Starting names (createBox M s).view := by
  obtain ⟨h1, h2, h3, h4, h5, h6, h7, h8, h9⟩ := h
  refine ⟨h1, h2, h3, h4, h5, h6, h7, h8, ?_⟩
  show ∀ r ∈ scene_add s.scene s.heap.length, r < (s.heap ++ [newMesh M]).length
  rw [List.length_append]
  exact scene_add_lt h9

theorem starting_addStar (M : JSMath F) (rand : Nat → F) {names : List String} (s : State F)
    (i : Nat) (h : Starting names s.view) : Starting names (addStar M rand s i).view := by
  obtain ⟨h1, h2, h3, h4, h5, h6, h7, h8, h9⟩ := h
  refine ⟨h1, h2, h3, h4, h5, h6, h7, h8, ?_⟩
  show ∀ r ∈ scene_add s.scene s.heap.length,
    r < (updateAt _ (updateAt _ (s.heap ++ [newMesh M]) _) _).length
  rw [length_updateAt, length_updateAt, List.length_append]
  exact scene_add_lt h9

theorem starting_addStars (M : JSMath F) (rand : Nat → F) {names : List String} (s : State F)
    (h : Starting names s.view) : Starting names (addStars M rand s).view := by
  unfold addStars
  generalize List.range 100 = l
  induction l generalizing s with
  | nil => exact h
  | cons i l ih => exact ih _ (starting_addStar M rand s i h)

theorem starting_addLights (M : JSMath F) {names : List String} (s : State F)
    (h : Starting names s.view) : Starting names (addLights M s).view := by
  obtain ⟨h1, h2, h3, h4, h5, h6, h7, h8, h9⟩ := h
  refine ⟨h1, h2, h3, h4, h5, h6, h7, h8, ?_⟩
  show ∀ r ∈ scene_add (scene_add s.scene s.heap.length)
      (updateAt _ (s.heap ++ [newLight M]) _).length,
    r < (updateAt _ (s.heap ++ [newLight M]) _ ++ [newLight M]).length
  rw [List.length_append, length_updateAt, List.length_append]
  exact scene_add_lt (scene_add_lt h9)

theorem starting_script (M : JSMath F) (host : Host F) (names : List String) :
    Starting names (script M host names).view := by
  unfold script
  simp only [view_animate]
  exact starting_addLights M _ (starting_addStars M _ _ (starting_createBox M _
    (starting_loadObjs M host names)))

theorem getElem?_replicate_pending {n i : Nat} {p : PromiseState Ref}
    (h : (List.replicate n (PromiseState.pending : PromiseState Ref))[i]? = some p) :
    p = PromiseState.pending := by
  rw [List.getElem?_replicate] at h
  split at h
  · exact (Option.some.inj h).symm
  · cases h

/-- The invariant holds when the script has started. -/
theorem inv_startup (M : JSMath F) (host : Host F) (names : List String) :
    Inv names (script M host names).scene (script M host names).heap.length
      (startup M host names).view := by
  have hs := starting_script M host names
  unfold startup
  generalize script M host names = s0 at hs ⊢
  refine inv_promiseAll_onFulfilled s0 ?_ hs.scene_lt hs.joined_eq hs.result_eq hs.flag_eq rfl
    ?_ ?_
  · refine ⟨hs.names_eq, ?_, hs.requests_eq, Nat.le_refl _, ?_, ?_, ?_, ?_, ?_⟩
    · rw [hs.loads_eq]
      simp
    · intro i h hi
      rw [hs.loads_eq] at hi
      cases getElem?_replicate_pending hi
    · intro i j h hi
      rw [hs.loads_eq] at hi
      cases getElem?_replicate_pending hi
    · intro i h hi
      rw [hs.loads_eq] at hi
      cases getElem?_replicate_pending hi
    · intro name h hget
      rw [hs.map_empty] at hget
      cases hget
    · intro i e hi
      rw [hs.loads_eq] at hi
      cases getElem?_replicate_pending hi
  · intro i e hi
    have hl : s0.loads = _ := hs.loads_eq
    rw [hl] at hi
    cases getElem?_replicate_pending hi
  · have hcn : s0.console = [] := hs.console_eq
    rw [hcn]
    rfl

/-- The invariant holds in every state the script reaches. -/
theorem inv_reachable (M : JSMath F) (host : Host F) (names : List String) (s : State F)
    (h : Reachable M host names s) :
    Inv names (script M host names).scene (script M host names).heap.length s.view := by
  obtain ⟨events, rfl⟩ := h
  exact inv_run M events _ (inv_startup M host names)

/-! ## Consequences of the invariant -/

theorem concluded_iff (s : State F) :
    s.concluded = true ↔ s.loadObjs_result ≠ PromiseState.pending := by
  simp [State.concluded]

/-- With distinct names, the map sends the name of a fulfilled load to the
handle of that load. -/
theorem get_of_loaded {names : List String} {size0 : Nat} {v : LoaderView}
    (hc : CoreInv names size0 v) (hnd : names.Nodup) {i : Nat} {name : String} {h : Ref}
    (hn : names[i]? = some name) (hl : v.loads[i]? = some (PromiseState.fulfilled h)) :
    Map_get v.three_objs name = some h := by
  obtain ⟨name1, hn1, hsome⟩ := hc.key_of_loaded i h hl
  rw [hn] at hn1
  cases hn1
  obtain ⟨h1, hget⟩ := Option.isSome_iff_exists.mp hsome
  obtain ⟨j, hj, hlj⟩ := hc.loaded_of_key name h1 hget
  have hi : i < names.length := (List.getElem?_eq_some.mp hn).1
  have hij : i = j := List.getElem?_inj hi hnd (hn.trans hj.symm)
  subst hij
  rw [hl] at hlj
  cases hlj
  exact hget

/-- With distinct names, the name of a load that is not fulfilled is not a key
of the map. -/
theorem get_of_not_loaded {names : List String} {size0 : Nat} {v : LoaderView}
    (hc : CoreInv names size0 v) (hnd : names.Nodup) {i : Nat} {name : String}
    (hn : names[i]? = some name) (hl : ∀ h : Ref, v.loads[i]? ≠ some (PromiseState.fulfilled h)) :
    Map_get v.three_objs name = none := by
  cases hget : Map_get v.three_objs name with
  | none => rfl
  | some h1 =>
    obtain ⟨j, hj, hlj⟩ := hc.loaded_of_key name h1 hget
    have hi : i < names.length := (List.getElem?_eq_some.mp hn).1
    have hij : i = j := List.getElem?_inj hi hnd (hn.trans hj.symm)
    subst hij
    exact absurd hlj (hl h1)

theorem loadedHandles_map (values : List Ref) :
    loadedHandles (values.map PromiseState.fulfilled) = values := by
  induction values with
  | nil => rfl
  | cons v vs ih => simp [loadedHandles, ih]

theorem getElem?_fulfilled_of_allValues {loads : List (PromiseState Ref)} {values : List Ref}
    (hv : allValues loads = some values) {i : Nat} {p : PromiseState Ref}
    (hp : loads[i]? = some p) : ∃ h : Ref, p = PromiseState.fulfilled h ∧ values[i]? = some h := by
  rw [allValues_eq_some.mp hv, List.getElem?_map] at hp
  cases hvi : values[i]? with
  | none => simp [hvi] at hp
  | some h =>
    refine ⟨h, ?_, rfl⟩
    simpa [hvi] using hp.symm

/-- When `Promise.all` is fulfilled, every name is a key of the map. -/
theorem keys_of_allValues {names : List String} {size0 : Nat} {v : LoaderView}
    (hc : CoreInv names size0 v) {values : List Ref} (hv : allValues v.loads = some values) :
    ∀ identifier ∈ names, Map_has v.three_objs identifier = true := by
  intro identifier hmem
  obtain ⟨i, hi⟩ := List.mem_iff_getElem?.mp hmem
  have hlt : i < v.loads.length := by
    rw [hc.len]
    exact (List.getElem?_eq_some.mp hi).1
  obtain ⟨h, hp, _⟩ := getElem?_fulfilled_of_allValues hv (List.getElem?_eq_getElem hlt)
  obtain ⟨name, hname, hsome⟩ := hc.key_of_loaded i h (by rw [List.getElem?_eq_getElem hlt, hp])
  rw [hi] at hname
  cases hname
  exact hsome

/-- The three cases of the invariant, by the state of `Promise.all`. -/
theorem inv_cases {names : List String} {base : List Ref} {size0 : Nat} {v : LoaderView}
    (h : Inv names base size0 v) :
    (v.joined = PromiseState.pending ∧ v.loadObjs_result = PromiseState.pending ∧
      v.all_objs_loaded = false ∧ v.scene = base ∧ allValues v.loads = none ∧
      (∀ (i : Nat) (e : String), v.loads[i]? ≠ some (PromiseState.rejected e)) ∧
      v.console.count batchComplete = 0) ∨
    (∃ values, v.joined = PromiseState.fulfilled values ∧
      v.loadObjs_result = PromiseState.fulfilled () ∧ v.all_objs_loaded = true ∧
      v.scene = base ++ values ∧ allValues v.loads = some values ∧
      v.console.count batchComplete = 1) ∨
    (∃ e, v.joined = PromiseState.rejected e ∧
      v.loadObjs_result = PromiseState.fulfilled () ∧ v.all_objs_loaded = false ∧
      v.scene = base ∧ (∃ i : Nat, v.loads[i]? = some (PromiseState.rejected e)) ∧
      v.console.count batchComplete = 0 ∧ batchError e ∈ v.console) := by
  obtain ⟨_, hj, _⟩ := h
  cases hjs : v.joined with
  | pending => exact Or.inl ⟨rfl, (joinInv_pending hjs).mp hj⟩
  | fulfilled values => exact Or.inr (Or.inl ⟨values, rfl, (joinInv_fulfilled hjs).mp hj⟩)
  | rejected e => exact Or.inr (Or.inr ⟨e, rfl, (joinInv_rejected hjs).mp hj⟩)

/-! ## The claims -/

/-- Claim C1.  For every sequence of distinct names, every outcome of the loads
and every order of the callbacks: once `loadObjs` has concluded,
`all_objs_loaded` is true if and only if every name is a key of `three_objs`. -/
theorem loadObjs_ready_iff_all_keys (M : JSMath F) (host : Host F) (names : List String)
    (hnd : names.Nodup) (s : State F) (hr : Reachable M host names s)
    (hdone : s.concluded = true) :
    s.all_objs_loaded = true ↔ ∀ identifier ∈ names, Map_has s.three_objs identifier = true := by
  have hinv := inv_reachable M host names s hr
  have hc : CoreInv names _ s.view := hinv.1
  have hres : s.loadObjs_result ≠ PromiseState.pending := (concluded_iff s).mp hdone
  rcases inv_cases hinv with ⟨_, hp, _⟩ | ⟨values, _, _, hall, _, hv, _⟩ | ⟨e, _, _, hall, _, ⟨i, hi⟩, _⟩
  · exact absurd hp hres
  · have hall1 : s.all_objs_loaded = true := hall
    simp only [hall1, true_iff]
    exact keys_of_allValues hc hv
  · have hall1 : s.all_objs_loaded = false := hall
    simp only [hall1, Bool.false_eq_true, false_iff]
    intro hkeys
    have hlt : i < names.length := by
      rw [← hc.len]
      exact (List.getElem?_eq_some.mp hi).1
    have hn : names[i]? = some names[i] := List.getElem?_eq_getElem hlt
    have hnone := get_of_not_loaded hc hnd hn (fun h hh => by
      rw [hi] at hh
      cases hh)
    have hsome := hkeys names[i] (List.getElem_mem hlt)
    have hnone1 : Map_get s.three_objs names[i] = none := hnone
    simp [Map_has, hnone1] at hsome

/-- Claim C2.  For every sequence of distinct names, every outcome of the loads
and every order of the callbacks, in every state the script reaches (so also
when all loads have completed): the name of a failed load is not a key of
`three_objs`, and the name of a load that succeeded is mapped to the handle that
load produced, a handle of the heap. -/
theorem loadObj_isolation (M : JSMath F) (host : Host F) (names : List String)
    (hnd : names.Nodup) (s : State F) (hr : Reachable M host names s)
    (i : Nat) (identifier : String) (hi : names[i]? = some identifier) :
    (∀ e : String, s.loads[i]? = some (PromiseState.rejected e) →
      Map_get s.three_objs identifier = none) ∧
    (∀ h : Ref, s.loads[i]? = some (PromiseState.fulfilled h) →
      Map_get s.three_objs identifier = some h ∧ h < s.heap.length) := by
  have hinv := inv_reachable M host names s hr
  have hc : CoreInv names _ s.view := hinv.1
  constructor
  · intro e he
    refine get_of_not_loaded hc hnd hi (fun h hh => ?_)
    have he1 : s.view.loads[i]? = some (PromiseState.rejected e) := he
    rw [he1] at hh
    cases hh
  · intro h hh
    exact ⟨get_of_loaded hc hnd hi hh, (hc.ref_range i h hh).2⟩

theorem three_objs_promiseAll_onFulfilled (s : State F) :
    (promiseAll_onFulfilled s).three_objs = s.three_objs := by
  unfold promiseAll_onFulfilled
  split
  · split <;> rfl
  · rfl

theorem script_fields (M : JSMath F) (host : Host F) (names : List String) :
    (script M host names).three_objs = [] ∧ (script M host names).all_objs_loaded = false := by
  have hs := starting_script M host names
  generalize script M host names = s0 at hs ⊢
  exact ⟨hs.map_empty, hs.flag_eq⟩

theorem three_objs_startup (M : JSMath F) (host : Host F) (names : List String) :
    (startup M host names).three_objs = [] := by
  unfold startup
  rw [three_objs_promiseAll_onFulfilled]
  exact (script_fields M host names).1

/-- Claim C3, as the code has it.  The lookup `three_objs.get(identifier)` always
returns and leaves the state as it is.  It returns `undefined` for a name of
which no load has succeeded, so for every name when the script has started, and
it returns the handle produced by the load of a name whose load succeeded. -/
theorem three_objs_get_returns (M : JSMath F) (host : Host F) (names : List String)
    (hnd : names.Nodup) (s : State F) (hr : Reachable M host names s) (identifier : String) :
    (three_objs_get s identifier).1 = s ∧
    (three_objs_get (three_objs_get s identifier).1 identifier).2 =
      (three_objs_get s identifier).2 ∧
    (three_objs_get (startup M host names) identifier).2 = Except.ok none ∧
    ((∀ (i : Nat) (h : Ref), names[i]? = some identifier →
        s.loads[i]? ≠ some (PromiseState.fulfilled h)) →
      (three_objs_get s identifier).2 = Except.ok none) ∧
    (∀ (i : Nat) (h : Ref), names[i]? = some identifier →
      s.loads[i]? = some (PromiseState.fulfilled h) →
      (three_objs_get s identifier).2 = Except.ok (some h)) := by
  have hinv := inv_reachable M host names s hr
  have hc : CoreInv names _ s.view := hinv.1
  refine ⟨rfl, rfl, ?_, ?_, ?_⟩
  · show Except.ok (Map_get (startup M host names).three_objs identifier) = Except.ok none
    rw [three_objs_startup]
    rfl
  · intro hnever
    cases hget : Map_get s.three_objs identifier with
    | none => simp [three_objs_get, hget]
    | some h =>
      obtain ⟨i, hn, hl⟩ := hc.loaded_of_key identifier h hget
      exact absurd hl (hnever i h hn)
  · intro i h hn hl
    have := get_of_loaded hc hnd hn hl
    have h1 : Map_get s.three_objs identifier = some h := this
    simp [three_objs_get, h1]

theorem startup_eq_script (M : JSMath F) (host : Host F) (names : List String)
    (hne : names ≠ []) : startup M host names = script M host names := by
  have hs := starting_script M host names
  unfold startup
  generalize script M host names = s0 at hs ⊢
  have hj : s0.joined = PromiseState.pending := hs.joined_eq
  have hl : s0.loads = List.replicate names.length PromiseState.pending := hs.loads_eq
  have hv : allValues s0.loads = none := by
    rw [hl]
    cases names with
    | nil => exact absurd rfl hne
    | cons n ns => rfl
  unfold promiseAll_onFulfilled
  rw [hj]
  simp only []
  rw [hv]

/-- Claim C5.  The flag `all_objs_loaded` is false when the top level of the
script ends, and still false when the script has started on a list of names
that is not empty; no callback changes it from true to false, and it is true in
every state reached from a state where it is true. -/
theorem all_objs_loaded_monotonic (M : JSMath F) (host : Host F) (names : List String) :
    (script M host names).all_objs_loaded = false ∧
    (names ≠ [] → (startup M host names).all_objs_loaded = false) ∧
    (∀ (s : State F) (e : Event F),
      s.all_objs_loaded = true → (step M s e).all_objs_loaded = true) ∧
    (∀ (s : State F) (events : List (Event F)),
      s.all_objs_loaded = true → (run M s events).all_objs_loaded = true) := by
  have hstep : ∀ (s : State F) (e : Event F),
      s.all_objs_loaded = true → (step M s e).all_objs_loaded = true := by
    intro s e hs
    have hview : ∀ t : State F, t.view = s.view → t.all_objs_loaded = true := fun t ht =>
      (congrArg LoaderView.all_objs_loaded ht).trans hs
    cases e with
    | loadSucceeded i gltf_scene =>
      simp only [step, loadObj_onLoad]
      split
      · unfold promiseAll_onFulfilled
        split
        · split
          · rfl
          · exact hs
        · exact hs
      · exact hs
    | loadFailed i error =>
      simp only [step, loadObj_onError]
      split
      · unfold promiseAll_onRejected
        split
        · exact hs
        · exact hs
      · exact hs
    | frame rnd => exact hview _ (view_animate M rnd s)
    | callRotateStars => exact hview _ (view_rotateStars M s)
    | callRotateCube => exact hview _ (view_rotateCube M s)
    | callAnimateSpaceShuttle => exact hview _ (view_animateSpaceShuttle M s)
    | callTransformThreeObjs rnd => exact hview _ (view_transformThreeObjs M rnd s)
    | clickToggleCubeRotation => exact hs
    | clickToggleImportedOpacity => exact hview _ (view_toggleImportedOpacity M s)
    | resize width height => exact hs
  refine ⟨(script_fields M host names).2, ?_, hstep, ?_⟩
  · intro hne
    rw [startup_eq_script M host names hne]
    exact (script_fields M host names).2
  intro s events
  induction events generalizing s with
  | nil => exact id
  | cons e es ih => exact fun hs => ih (step M s e) (hstep s e hs)

theorem three_objs_transformEach (M : JSMath F) (rnd : Nat → F) (m : List (String × Ref))
    (k : Nat) (s : State F) : (transformEach M rnd m k s).three_objs = s.three_objs :=
  congrArg LoaderView.three_objs (view_transformEach M rnd m k s)

theorem transformThreeObjs_closed (M : JSMath F) (rnd : Nat → F) (s : State F)
    (h : s.all_objs_loaded = false ∨ s.transformed = true) :
    transformThreeObjs M rnd s = ⟨s, none⟩ := by
  unfold transformThreeObjs
  rcases h with h | h <;> simp [h]

theorem transformThreeObjs_applies (M : JSMath F) (rnd : Nat → F) (s : State F)
    (hl : s.all_objs_loaded = true) (ht : s.transformed = false) {hoop shuttle : Ref}
    (hh : Map_get s.three_objs "hoop" = some hoop)
    (hs : Map_get s.three_objs "spaceshuttle" = some shuttle) :
    (transformThreeObjs M rnd s).thrown = none ∧
    (transformThreeObjs M rnd s).state.transformed = true := by
  unfold transformThreeObjs
  simp [hl, ht, three_objs_transformEach, State.modify, hh, hs]

theorem transformThreeObjs_twice (M : JSMath F) (rnd rnd2 : Nat → F) (s : State F)
    (hkeys : s.all_objs_loaded = true →
      Map_has s.three_objs "hoop" = true ∧ Map_has s.three_objs "spaceshuttle" = true) :
    transformThreeObjs M rnd2 (transformThreeObjs M rnd s).state =
      ⟨(transformThreeObjs M rnd s).state, none⟩ := by
  by_cases hgate : s.all_objs_loaded = true ∧ s.transformed = false
  · obtain ⟨hl, ht⟩ := hgate
    obtain ⟨hh, hs⟩ := hkeys hl
    obtain ⟨hoop, hh⟩ := Option.isSome_iff_exists.mp hh
    obtain ⟨shuttle, hs⟩ := Option.isSome_iff_exists.mp hs
    exact transformThreeObjs_closed M rnd2 _
      (Or.inr (transformThreeObjs_applies M rnd s hl ht hh hs).2)
  · have hclosed : s.all_objs_loaded = false ∨ s.transformed = true := by
      cases hl : s.all_objs_loaded <;> cases ht : s.transformed <;> simp_all
    rw [transformThreeObjs_closed M rnd s hclosed]
    exact transformThreeObjs_closed M rnd2 s hclosed

theorem mem_shipped_hoop : "hoop" ∈ shipped_filenames := by decide

theorem mem_shipped_spaceshuttle : "spaceshuttle" ∈ shipped_filenames := by decide

/-- In a state the script reaches on its own names, a true `all_objs_loaded`
means that every name is a key of `three_objs`. -/
theorem keys_of_all_objs_loaded (M : JSMath F) (host : Host F) (names : List String)
    (s : State F) (hr : Reachable M host names s) (hl : s.all_objs_loaded = true) :
    ∀ identifier ∈ names, Map_has s.three_objs identifier = true := by
  have hinv := inv_reachable M host names s hr
  rcases inv_cases hinv with ⟨_, _, hall, _⟩ | ⟨values, _, _, _, _, hv, _⟩ | ⟨e, _, _, hall, _⟩
  · have h1 : s.all_objs_loaded = false := hall
    rw [h1] at hl
    cases hl
  · exact keys_of_allValues hinv.1 hv
  · have h1 : s.all_objs_loaded = false := hall
    rw [h1] at hl
    cases hl

/-- Claim C4.  In every state the script reaches on the names "basketball",
"hoop", "spaceshuttle" by load completions, frame routines and button
callbacks in any order: a true `all_objs_loaded` means that every name is a key
of `three_objs`, so that the gated lookups of "hoop" and "spaceshuttle" find an
entry and `transformThreeObjs` throws nothing; and while `loadObjs` has not
concluded the flag is false, in which case `animateSpaceShuttle` and
`transformThreeObjs` leave the whole state unchanged. -/
theorem readiness_gate_safe (M : JSMath F) (host : Host F) (s : State F)
    (hr : Reachable M host shipped_filenames s) :
    (s.all_objs_loaded = true →
      ∀ identifier ∈ shipped_filenames, Map_has s.three_objs identifier = true) ∧
    (s.all_objs_loaded = true →
      ∃ hoop shuttle : Ref, Map_get s.three_objs "hoop" = some hoop ∧
        Map_get s.three_objs "spaceshuttle" = some shuttle) ∧
    (∀ rnd : Nat → F, (transformThreeObjs M rnd s).thrown = none) ∧
    (s.concluded = false → s.all_objs_loaded = false) ∧
    (s.all_objs_loaded = false →
      animateSpaceShuttle M s = s ∧ ∀ rnd : Nat → F, transformThreeObjs M rnd s = ⟨s, none⟩) := by
  have hkeys := keys_of_all_objs_loaded M host shipped_filenames s hr
  have hboth : s.all_objs_loaded = true →
      ∃ hoop shuttle : Ref, Map_get s.three_objs "hoop" = some hoop ∧
        Map_get s.three_objs "spaceshuttle" = some shuttle := by
    intro hl
    obtain ⟨hoop, hh⟩ := Option.isSome_iff_exists.mp (hkeys hl "hoop" mem_shipped_hoop)
    obtain ⟨shuttle, hs⟩ :=
      Option.isSome_iff_exists.mp (hkeys hl "spaceshuttle" mem_shipped_spaceshuttle)
    exact ⟨hoop, shuttle, hh, hs⟩
  refine ⟨hkeys, hboth, ?_, ?_, ?_⟩
  · intro rnd
    by_cases hgate : s.all_objs_loaded = true ∧ s.transformed = false
    · obtain ⟨hoop, shuttle, hh, hs⟩ := hboth hgate.1
      exact (transformThreeObjs_applies M rnd s hgate.1 hgate.2 hh hs).1
    · have hclosed : s.all_objs_loaded = false ∨ s.transformed = true := by
        cases hl : s.all_objs_loaded <;> cases ht : s.transformed <;> simp_all
      rw [transformThreeObjs_closed M rnd s hclosed]
  · intro hnot
    have hinv := inv_reachable M host shipped_filenames s hr
    rcases inv_cases hinv with ⟨_, _, hall, _⟩ | ⟨values, _, hres, _⟩ | ⟨e, _, _, hall, _⟩
    · exact hall
    · have h1 : s.loadObjs_result = PromiseState.fulfilled () := hres
      simp [State.concluded, h1] at hnot
    · exact hall
  · intro hl
    refine ⟨?_, fun rnd => transformThreeObjs_closed M rnd s (Or.inl hl)⟩
    unfold animateSpaceShuttle
    simp [hl]

/-- Claim C6, as the code has it.  In every state the script reaches, `loadObjs`
has concluded exactly when every load has succeeded or some load has failed: it
sets `all_objs_loaded` only when every load has succeeded, and it takes its
failure path at the first failed load, whatever the state of the other loads. -/
theorem loadObjs_concludes_iff (M : JSMath F) (host : Host F) (names : List String)
    (s : State F) (hr : Reachable M host names s) :
    (s.concluded = true ↔
      (allValues s.loads).isSome = true ∨
      ∃ (i : Nat) (e : String), s.loads[i]? = some (PromiseState.rejected e)) ∧
    (s.all_objs_loaded = true → (allValues s.loads).isSome = true) ∧
    ((∃ (i : Nat) (e : String), s.loads[i]? = some (PromiseState.rejected e)) →
      ∃ e : String, batchError e ∈ s.console) := by
  have hinv := inv_reachable M host names s hr
  rcases inv_cases hinv with ⟨_, hres, hall, _, hv, hnorej, _⟩ |
      ⟨values, _, hres, hall, _, hv, _⟩ | ⟨e, _, hres, hall, _, ⟨i, hi⟩, _, hmem⟩
  · have h1 : s.loadObjs_result = PromiseState.pending := hres
    have h2 : s.all_objs_loaded = false := hall
    have h3 : allValues s.loads = none := hv
    refine ⟨?_, ?_, ?_⟩
    · simp only [State.concluded, h1, h3]
      constructor
      · intro h
        simp at h
      · rintro (h | ⟨i, e, hie⟩)
        · simp at h
        · exact absurd hie (hnorej i e)
    · intro h
      rw [h2] at h
      cases h
    · rintro ⟨i, e, hie⟩
      exact absurd hie (hnorej i e)
  · have h1 : s.loadObjs_result = PromiseState.fulfilled () := hres
    have h3 : allValues s.loads = some values := hv
    refine ⟨?_, ?_, ?_⟩
    · simp [State.concluded, h1, h3]
    · intro _
      simp [h3]
    · rintro ⟨i, e, hie⟩
      obtain ⟨h, hp, _⟩ := getElem?_fulfilled_of_allValues hv hie
      cases hp
  · have h1 : s.loadObjs_result = PromiseState.fulfilled () := hres
    have h2 : s.all_objs_loaded = false := hall
    refine ⟨?_, ?_, ?_⟩
    · simp only [State.concluded, h1]
      constructor
      · intro _
        exact Or.inr ⟨i, e, hi⟩
      · intro _
        decide
    · intro h
      rw [h2] at h
      cases h
    · intro _
      exact ⟨e, hmem⟩

theorem not_pending_of_allSettled {loads : List (PromiseState Ref)}
    (h : allSettled loads = true) {i : Nat} {p : PromiseState Ref} (hp : loads[i]? = some p) :
    p ≠ PromiseState.pending := by
  have hmem : p ∈ loads := List.mem_iff_getElem?.mpr ⟨i, hp⟩
  have := List.all_eq_true.mp h p hmem
  simpa using this

/-- Claim C7.  In every state the script reaches, for every list of names and
every outcome of the loads, the promise returned by `loadObjs` is not rejected,
and it is fulfilled once every load has finished.  A failed load leaves
`all_objs_loaded` false and shows in the console, as the error entry of that
load and as the error entry of the batch. -/
theorem loadObjs_never_rejects (M : JSMath F) (host : Host F) (names : List String)
    (s : State F) (hr : Reachable M host names s) :
    (∀ e : String, s.loadObjs_result ≠ PromiseState.rejected e) ∧
    (allSettled s.loads = true → s.loadObjs_result = PromiseState.fulfilled ()) ∧
    (∀ (i : Nat) (e : String), s.loads[i]? = some (PromiseState.rejected e) →
      s.all_objs_loaded = false ∧ s.loadObjs_result = PromiseState.fulfilled () ∧
      (∃ name : String, names[i]? = some name ∧ loadError name e ∈ s.console) ∧
      ∃ e0 : String, batchError e0 ∈ s.console) := by
  have hinv := inv_reachable M host names s hr
  have hc : CoreInv names _ s.view := hinv.1
  rcases inv_cases hinv with ⟨_, hres, hall, _, hv, hnorej, _⟩ |
      ⟨values, _, hres, hall, _, hv, _⟩ | ⟨e, _, hres, hall, _, ⟨i, hi⟩, _, hmem⟩
  · have h1 : s.loadObjs_result = PromiseState.pending := hres
    refine ⟨?_, ?_, ?_⟩
    · intro e he
      rw [h1] at he
      cases he
    · intro hset
      obtain ⟨i, p, hp, hne⟩ := allValues_eq_none hv
      have hnp := not_pending_of_allSettled hset hp
      cases p with
      | pending => exact absurd rfl hnp
      | fulfilled v => exact absurd rfl (hne v)
      | rejected e => exact absurd hp (hnorej i e)
    · intro i e hie
      exact absurd hie (hnorej i e)
  · have h1 : s.loadObjs_result = PromiseState.fulfilled () := hres
    refine ⟨?_, fun _ => h1, ?_⟩
    · intro e he
      rw [h1] at he
      cases he
    · intro i e hie
      obtain ⟨h, hp, _⟩ := getElem?_fulfilled_of_allValues hv hie
      cases hp
  · have h1 : s.loadObjs_result = PromiseState.fulfilled () := hres
    refine ⟨?_, fun _ => h1, ?_⟩
    · intro e0 he
      rw [h1] at he
      cases he
    · intro j e1 hje
      exact ⟨hall, h1, hc.err_logged j e1 hje, e, hmem⟩

/-- Claim C8.  For every list of names, in every state the script reaches in
which every load has succeeded: the scene is the scene of the end of the top
level followed by the handles of the loads in the order of the names, each of
these handles is in the scene exactly once, the `i`-th of them is the handle
produced by the load of the `i`-th name (the value of that name in `three_objs`
when the names are distinct), `all_objs_loaded` is true, the console holds
"All objects loaded!" exactly once, and every name is a key of `three_objs`. -/
theorem loadObjs_all_succeed (M : JSMath F) (host : Host F) (names : List String)
    (s : State F) (hr : Reachable M host names s)
    (hsucc : ∀ p ∈ s.loads, ∃ h : Ref, p = PromiseState.fulfilled h) :
    s.scene = (script M host names).scene ++ loadedHandles s.loads ∧
    (loadedHandles s.loads).length = names.length ∧
    (∀ h ∈ loadedHandles s.loads, s.scene.count h = 1) ∧
    (∀ (i : Nat) (name : String), names[i]? = some name →
      ∃ h : Ref, (loadedHandles s.loads)[i]? = some h ∧
        s.loads[i]? = some (PromiseState.fulfilled h) ∧
        (names.Nodup → Map_get s.three_objs name = some h)) ∧
    s.all_objs_loaded = true ∧
    s.console.count batchComplete = 1 ∧
    ∀ identifier ∈ names, Map_has s.three_objs identifier = true := by
  have hinv := inv_reachable M host names s hr
  generalize (script M host names).scene = base at hinv ⊢
  generalize (script M host names).heap.length = size0 at hinv
  have hc : CoreInv names size0 s.view := hinv.1
  have hb : ∀ r ∈ base, r < size0 := hinv.2.2
  have hnotrej : ∀ (i : Nat) (e : String), s.loads[i]? ≠ some (PromiseState.rejected e) := by
    intro i e hie
    obtain ⟨h, hh⟩ := hsucc _ (List.mem_iff_getElem?.mpr ⟨i, hie⟩)
    cases hh
  rcases inv_cases hinv with ⟨_, _, _, _, hv, _⟩ |
      ⟨values, _, _, hall, hscene, hv, hcount⟩ | ⟨e, _, _, _, _, ⟨i, hi⟩, _⟩
  · obtain ⟨i, p, hp, hne⟩ := allValues_eq_none hv
    obtain ⟨h, hh⟩ := hsucc p (List.mem_iff_getElem?.mpr ⟨i, hp⟩)
    exact absurd hh (hne h)
  · have hl : s.loads = values.map PromiseState.fulfilled := allValues_eq_some.mp hv
    have hlh : loadedHandles s.loads = values := by rw [hl, loadedHandles_map]
    obtain ⟨hnd, hge⟩ := values_fresh hc hv
    have hs1 : s.scene = base ++ values := hscene
    rw [hlh]
    refine ⟨hs1, ?_, ?_, ?_, hall, hcount, keys_of_allValues hc hv⟩
    · have hlen : s.loads.length = names.length := hc.len
      rw [hl, List.length_map] at hlen
      exact hlen
    · intro h hmem
      have hnb : h ∉ base := fun hx => absurd (hb h hx) (Nat.not_lt.mpr (hge h hmem))
      rw [hs1, List.count_append, List.count_eq_zero_of_not_mem hnb,
        List.count_eq_one_of_mem hnd hmem]
    · intro i name hn
      have hlt : i < s.loads.length := by
        have hlen : s.loads.length = names.length := hc.len
        rw [hlen]
        exact (List.getElem?_eq_some.mp hn).1
      obtain ⟨h, hp, hvi⟩ := getElem?_fulfilled_of_allValues hv (List.getElem?_eq_getElem hlt)
      have hli : s.loads[i]? = some (PromiseState.fulfilled h) := by
        rw [List.getElem?_eq_getElem hlt, hp]
      exact ⟨h, hvi, hli, fun hnodup => get_of_loaded hc hnodup hn hli⟩
  · exact absurd hi (hnotrej i e)

/-- Claim C9.  In every state where `all_objs_loaded` is false or `transformed`
is true, `transformThreeObjs` leaves the whole state unchanged and throws
nothing.  In every state the script reaches, when it applies (`all_objs_loaded`
true and `transformed` false) it throws nothing and sets `transformed` to true,
so that a second call in a row, with any random offsets, changes nothing: two
calls leave the state one call leaves. -/
theorem transformThreeObjs_once (M : JSMath F) (host : Host F) (s : State F)
    (hr : Reachable M host shipped_filenames s) (rnd rnd2 : Nat → F) :
    (∀ t : State F, (t.all_objs_loaded = false ∨ t.transformed = true) →
      transformThreeObjs M rnd t = ⟨t, none⟩) ∧
    (s.all_objs_loaded = true → s.transformed = false →
      (transformThreeObjs M rnd s).thrown = none ∧
      (transformThreeObjs M rnd s).state.transformed = true) ∧
    transformThreeObjs M rnd2 (transformThreeObjs M rnd s).state =
      ⟨(transformThreeObjs M rnd s).state, none⟩ ∧
    (transformThreeObjs M rnd2 (transformThreeObjs M rnd s).state).state =
      (transformThreeObjs M rnd s).state := by
  have hkeys := keys_of_all_objs_loaded M host shipped_filenames s hr
  have hboth : s.all_objs_loaded = true →
      Map_has s.three_objs "hoop" = true ∧ Map_has s.three_objs "spaceshuttle" = true :=
    fun hl => ⟨hkeys hl "hoop" mem_shipped_hoop, hkeys hl "spaceshuttle" mem_shipped_spaceshuttle⟩
  have htwice := transformThreeObjs_twice M rnd rnd2 s hboth
  refine ⟨fun t => transformThreeObjs_closed M rnd t, ?_, htwice, ?_⟩
  · intro hl ht
    obtain ⟨hh, hs⟩ := hboth hl
    obtain ⟨hoop, hh⟩ := Option.isSome_iff_exists.mp hh
    obtain ⟨shuttle, hs⟩ := Option.isSome_iff_exists.mp hs
    exact transformThreeObjs_applies M rnd s hl ht hh hs
  · rw [htwice]

/-- Claim C10.  For every list of names, in every state the script reaches: when
some load has failed the scene is the scene of the end of the top level, and the
handle of no load that succeeded is in it, although the name of that load is a
key of `three_objs`; and the scene is either that scene or that scene followed
by the handles of all the loads, all of them fulfilled. -/
theorem loadObjs_scene_all_or_none (M : JSMath F) (host : Host F) (names : List String)
    (s : State F) (hr : Reachable M host names s) :
    ((∃ (i : Nat) (e : String), s.loads[i]? = some (PromiseState.rejected e)) →
      s.scene = (script M host names).scene ∧
      ∀ (j : Nat) (h : Ref), s.loads[j]? = some (PromiseState.fulfilled h) →
        h ∉ s.scene ∧
        ∃ name : String, names[j]? = some name ∧ Map_has s.three_objs name = true) ∧
    (s.scene = (script M host names).scene ∨
      (allValues s.loads = some (loadedHandles s.loads) ∧
        s.scene = (script M host names).scene ++ loadedHandles s.loads)) := by
  have hinv := inv_reachable M host names s hr
  generalize (script M host names).scene = base at hinv ⊢
  generalize (script M host names).heap.length = size0 at hinv
  have hc : CoreInv names size0 s.view := hinv.1
  have hb : ∀ r ∈ base, r < size0 := hinv.2.2
  have hnone : s.scene = base →
      ∀ (j : Nat) (h : Ref), s.loads[j]? = some (PromiseState.fulfilled h) →
        h ∉ s.scene ∧
        ∃ name : String, names[j]? = some name ∧ Map_has s.three_objs name = true := by
    intro hscene j h hj
    refine ⟨?_, hc.key_of_loaded j h hj⟩
    rw [hscene]
    exact fun hx => absurd (hb h hx) (Nat.not_lt.mpr (hc.ref_range j h hj).1)
  rcases inv_cases hinv with ⟨_, _, _, hscene, _, hnorej, _⟩ |
      ⟨values, _, _, _, hscene, hv, _⟩ | ⟨e, _, _, _, hscene, _, _⟩
  · exact ⟨fun _ => ⟨hscene, hnone hscene⟩, Or.inl hscene⟩
  · have hl : s.loads = values.map PromiseState.fulfilled := allValues_eq_some.mp hv
    have hlh : loadedHandles s.loads = values := by rw [hl, loadedHandles_map]
    refine ⟨?_, Or.inr ?_⟩
    · rintro ⟨i, e, hie⟩
      obtain ⟨h, hp, _⟩ := getElem?_fulfilled_of_allValues hv hie
      cases hp
    · rw [hlh]
      exact ⟨hv, hscene⟩
  · exact ⟨fun _ => ⟨hscene, hnone hscene⟩, Or.inl hscene⟩

/-! ## The claims on sample runs -/

set_option maxRecDepth 100000

theorem reachable_allLoaded : Reachable symMath symHost shipped_filenames allLoaded :=
  ⟨_, rfl⟩

theorem reachable_oneFailed : Reachable symMath symHost shipped_filenames oneFailed :=
  ⟨_, rfl⟩

theorem reachable_firstFailed : Reachable symMath symHost shipped_filenames firstFailed :=
  ⟨_, rfl⟩

theorem loads_allLoaded :
    allLoaded.loads =
      [PromiseState.fulfilled 104, PromiseState.fulfilled 103, PromiseState.fulfilled 105] := by
  decide

/-- Claim C1 on the run in which the three loads succeed. -/
theorem loadObjs_ready_iff_all_keys_witness :
    shipped_filenames.Nodup ∧ Reachable symMath symHost shipped_filenames allLoaded ∧
    allLoaded.concluded = true ∧
    (allLoaded.all_objs_loaded = true ↔
      ∀ identifier ∈ shipped_filenames, Map_has allLoaded.three_objs identifier = true) :=
  ⟨by decide, reachable_allLoaded, by decide,
    loadObjs_ready_iff_all_keys symMath symHost shipped_filenames (by decide) allLoaded
      reachable_allLoaded (by decide)⟩

/-- Claim C2 on the run in which the load of "hoop" fails and its siblings
succeed. -/
theorem loadObj_isolation_witness :
    shipped_filenames.Nodup ∧ Reachable symMath symHost shipped_filenames oneFailed ∧
    shipped_filenames[1]? = some "hoop" ∧
    oneFailed.loads[1]? = some (PromiseState.rejected "404") ∧
    ((∀ e : String, oneFailed.loads[1]? = some (PromiseState.rejected e) →
      Map_get oneFailed.three_objs "hoop" = none) ∧
    (∀ h : Ref, oneFailed.loads[1]? = some (PromiseState.fulfilled h) →
      Map_get oneFailed.three_objs "hoop" = some h ∧ h < oneFailed.heap.length)) :=
  ⟨by decide, reachable_oneFailed, by decide, by decide,
    loadObj_isolation symMath symHost shipped_filenames (by decide) oneFailed
      reachable_oneFailed 1 "hoop" (by decide)⟩

/-- Claim C3 as stated fails: when the script has started on its own names, the
lookup of "hoop" returns `undefined`; it is not a failure. -/
theorem three_objs_get_absent_returns_undefined :
    (three_objs_get shippedStart "hoop").2 = Except.ok none ∧
    ¬ ∃ e : String, (three_objs_get shippedStart "hoop").2 = Except.error e := by
  have h : (three_objs_get shippedStart "hoop").2 = Except.ok none := by
    show Except.ok (Map_get (startup symMath symHost shipped_filenames).three_objs "hoop") =
      Except.ok none
    rw [three_objs_startup]
    rfl
  refine ⟨h, ?_⟩
  rintro ⟨e, he⟩
  rw [h] at he
  cases he

/-- Claim C3, as the code has it, on the run in which the three loads succeed. -/
theorem three_objs_get_returns_witness :
    shipped_filenames.Nodup ∧ Reachable symMath symHost shipped_filenames allLoaded ∧
    ((three_objs_get allLoaded "hoop").1 = allLoaded ∧
    (three_objs_get (three_objs_get allLoaded "hoop").1 "hoop").2 =
      (three_objs_get allLoaded "hoop").2 ∧
    (three_objs_get (startup symMath symHost shipped_filenames) "hoop").2 = Except.ok none ∧
    ((∀ (i : Nat) (h : Ref), shipped_filenames[i]? = some "hoop" →
        allLoaded.loads[i]? ≠ some (PromiseState.fulfilled h)) →
      (three_objs_get allLoaded "hoop").2 = Except.ok none) ∧
    (∀ (i : Nat) (h : Ref), shipped_filenames[i]? = some "hoop" →
      allLoaded.loads[i]? = some (PromiseState.fulfilled h) →
      (three_objs_get allLoaded "hoop").2 = Except.ok (some h))) :=
  ⟨by decide, reachable_allLoaded,
    three_objs_get_returns symMath symHost shipped_filenames (by decide) allLoaded
      reachable_allLoaded "hoop"⟩

/-- Claim C4 on the run in which the three loads succeed. -/
theorem readiness_gate_safe_witness :
    Reachable symMath symHost shipped_filenames allLoaded ∧
    ((allLoaded.all_objs_loaded = true →
      ∀ identifier ∈ shipped_filenames, Map_has allLoaded.three_objs identifier = true) ∧
    (allLoaded.all_objs_loaded = true →
      ∃ hoop shuttle : Ref, Map_get allLoaded.three_objs "hoop" = some hoop ∧
        Map_get allLoaded.three_objs "spaceshuttle" = some shuttle) ∧
    (∀ rnd : Nat → Sym, (transformThreeObjs symMath rnd allLoaded).thrown = none) ∧
    (allLoaded.concluded = false → allLoaded.all_objs_loaded = false) ∧
    (allLoaded.all_objs_loaded = false →
      animateSpaceShuttle symMath allLoaded = allLoaded ∧
      ∀ rnd : Nat → Sym, transformThreeObjs symMath rnd allLoaded = ⟨allLoaded, none⟩)) :=
  ⟨reachable_allLoaded, readiness_gate_safe symMath symHost allLoaded reachable_allLoaded⟩

/-- Claim C6 as stated fails: when the load of "hoop" fails first, `loadObjs`
concludes, with its error entry in the console, while the loads of "basketball"
and "spaceshuttle" are still pending; the load of "basketball" can still
succeed afterwards. -/
theorem loadObjs_concludes_at_first_failure :
    firstFailed.concluded = true ∧ batchError "404" ∈ firstFailed.console ∧
    firstFailed.loads[0]? = some PromiseState.pending ∧
    firstFailed.loads[2]? = some PromiseState.pending ∧
    allSettled firstFailed.loads = false ∧
    Map_has (step symMath firstFailed (Event.loadSucceeded 0 sampleModel)).three_objs
      "basketball" = true := by
  refine ⟨by decide, by decide, by decide, by decide, by decide, by decide⟩

/-- Claim C6, as the code has it, on the run in which the load of "hoop" fails
first. -/
theorem loadObjs_concludes_iff_witness :
    Reachable symMath symHost shipped_filenames firstFailed ∧
    ((firstFailed.concluded = true ↔
      (allValues firstFailed.loads).isSome = true ∨
      ∃ (i : Nat) (e : String), firstFailed.loads[i]? = some (PromiseState.rejected e)) ∧
    (firstFailed.all_objs_loaded = true → (allValues firstFailed.loads).isSome = true) ∧
    ((∃ (i : Nat) (e : String), firstFailed.loads[i]? = some (PromiseState.rejected e)) →
      ∃ e : String, batchError e ∈ firstFailed.console)) :=
  ⟨reachable_firstFailed,
    loadObjs_concludes_iff symMath symHost shipped_filenames firstFailed reachable_firstFailed⟩

/-- Claim C7 on the run in which the load of "hoop" fails and its siblings
succeed. -/
theorem loadObjs_never_rejects_witness :
    Reachable symMath symHost shipped_filenames oneFailed ∧
    ((∀ e : String, oneFailed.loadObjs_result ≠ PromiseState.rejected e) ∧
    (allSettled oneFailed.loads = true → oneFailed.loadObjs_result = PromiseState.fulfilled ()) ∧
    (∀ (i : Nat) (e : String), oneFailed.loads[i]? = some (PromiseState.rejected e) →
      oneFailed.all_objs_loaded = false ∧ oneFailed.loadObjs_result = PromiseState.fulfilled () ∧
      (∃ name : String, shipped_filenames[i]? = some name ∧ loadError name e ∈ oneFailed.console) ∧
      ∃ e0 : String, batchError e0 ∈ oneFailed.console)) :=
  ⟨reachable_oneFailed,
    loadObjs_never_rejects symMath symHost shipped_filenames oneFailed reachable_oneFailed⟩

theorem succeeded_allLoaded :
    ∀ p ∈ allLoaded.loads, ∃ h : Ref, p = PromiseState.fulfilled h := by
  intro p hp
  rw [loads_allLoaded] at hp
  simp only [List.mem_cons, List.mem_singleton, List.not_mem_nil, or_false] at hp
  rcases hp with rfl | rfl | rfl
  · exact ⟨104, rfl⟩
  · exact ⟨103, rfl⟩
  · exact ⟨105, rfl⟩

/-- Claim C8 on the run in which the three loads succeed: the flag is true and
"hoop" is a key of `three_objs`. -/
theorem loadObjs_all_succeed_witness :
    Reachable symMath symHost shipped_filenames allLoaded ∧
    (∀ p ∈ allLoaded.loads, ∃ h : Ref, p = PromiseState.fulfilled h) ∧
    allLoaded.all_objs_loaded = true ∧ Map_has allLoaded.three_objs "hoop" = true ∧
    allLoaded.console.count batchComplete = 1 ∧
    allLoaded.scene = (script symMath symHost shipped_filenames).scene ++ [104, 103, 105] :=
  have h := loadObjs_all_succeed symMath symHost shipped_filenames allLoaded
    reachable_allLoaded succeeded_allLoaded
  ⟨reachable_allLoaded, succeeded_allLoaded, h.2.2.2.2.1, h.2.2.2.2.2.2 "hoop" mem_shipped_hoop,
    h.2.2.2.2.2.1, by
      have h1 := h.1
      rw [loads_allLoaded] at h1
      exact h1⟩

theorem reachable_justLoaded : Reachable symMath symHost shipped_filenames justLoaded :=
  ⟨_, rfl⟩

/-- Claim C9 on the run in which the three loads have succeeded and no frame has
run since: the gate is open, and the call applies. -/
theorem transformThreeObjs_once_witness :
    Reachable symMath symHost shipped_filenames justLoaded ∧
    justLoaded.all_objs_loaded = true ∧ justLoaded.transformed = false ∧
    ((∀ t : State Sym, (t.all_objs_loaded = false ∨ t.transformed = true) →
      transformThreeObjs symMath Sym.random t = ⟨t, none⟩) ∧
    (justLoaded.all_objs_loaded = true → justLoaded.transformed = false →
      (transformThreeObjs symMath Sym.random justLoaded).thrown = none ∧
      (transformThreeObjs symMath Sym.random justLoaded).state.transformed = true) ∧
    transformThreeObjs symMath (fun k => Sym.random (k + 1))
        (transformThreeObjs symMath Sym.random justLoaded).state =
      ⟨(transformThreeObjs symMath Sym.random justLoaded).state, none⟩ ∧
    (transformThreeObjs symMath (fun k => Sym.random (k + 1))
        (transformThreeObjs symMath Sym.random justLoaded).state).state =
      (transformThreeObjs symMath Sym.random justLoaded).state) :=
  ⟨reachable_justLoaded, by decide, by decide,
    transformThreeObjs_once symMath symHost justLoaded reachable_justLoaded Sym.random
      (fun k => Sym.random (k + 1))⟩

/-- Claim C10 on the run in which the load of "hoop" fails and its siblings
succeed. -/
theorem loadObjs_scene_all_or_none_witness :
    Reachable symMath symHost shipped_filenames oneFailed ∧
    (((∃ (i : Nat) (e : String), oneFailed.loads[i]? = some (PromiseState.rejected e)) →
      oneFailed.scene = (script symMath symHost shipped_filenames).scene ∧
      ∀ (j : Nat) (h : Ref), oneFailed.loads[j]? = some (PromiseState.fulfilled h) →
        h ∉ oneFailed.scene ∧
        ∃ name : String, shipped_filenames[j]? = some name ∧
          Map_has oneFailed.three_objs name = true) ∧
    (oneFailed.scene = (script symMath symHost shipped_filenames).scene ∨
      (allValues oneFailed.loads = some (loadedHandles oneFailed.loads) ∧
        oneFailed.scene =
          (script symMath symHost shipped_filenames).scene ++ loadedHandles oneFailed.loads))) :=
  ⟨reachable_oneFailed,
    loadObjs_scene_all_or_none symMath symHost shipped_filenames oneFailed reachable_oneFailed⟩

end NasaApp
